import Mathlib

/-!
A shallow embedding of the purchase-ledger aggregation engine of the
CRM backend (Sequelize models `Purchase`, `PurchaseItem`, `Customer`,
`ProductVariant` plus the `bulkUpdateStock` controller).

Monetary values are embedded as exact rationals (`Rat`): the JavaScript
hooks perform plain arithmetic with no rounding step; the two-decimal
DECIMAL(n,2) column types are a storage concern of the database engine,
which is not part of the JavaScript source.

The Sequelize instance lifecycle is embedded faithfully, in particular
its order of operations: field validation (the `validate:` blocks of the
model definitions) runs BEFORE the `beforeCreate`/`beforeUpdate` hooks,
so values derived inside those hooks are never validated.  Each stateful
operation returns the stored state after all persisted effects together
with a flag: `true` when the whole chain completed, `false` when some
step threw (validation failure, missing row, unique- or foreign-key
violation); on `false` the returned state contains the partial effects
that had already been persisted, exactly as in an untransacted run.

Fields irrelevant to the ledger claims (customer contact data, payment
enums, notes bodies, product metadata) are omitted from the records.
-/

namespace Crm

/-- One row of `purchase_items` (purchaseItem.model.js). -/
structure PurchaseItemRec where
  id : Nat
  purchase_id : Nat
  product_id : Nat
  quantity : Nat
  unit_price : Rat
  discount_percentage : Rat
  discount_amount : Rat
  subtotal : Rat
  notes : String
deriving Repr, DecidableEq

/-- One row of `purchases` (purchase.model.js). -/
structure PurchaseRec where
  id : Nat
  customer_id : Nat
  purchase_number : String
  total_amount : Rat
  discount_amount : Rat
  tax_amount : Rat
  final_amount : Rat
  purchase_date : Nat
deriving Repr, DecidableEq

/-- One row of `customers` (customer.model.js), restricted to the rollup fields. -/
structure CustomerRec where
  id : Nat
  totalPurchases : Nat
  totalSpent : Rat
  lastPurchaseDate : Nat
deriving Repr, DecidableEq

/-- The persisted ledger state: the three related tables. -/
structure DBState where
  customers : List CustomerRec
  purchases : List PurchaseRec
  items : List PurchaseItemRec
deriving Repr, DecidableEq

/-- `Customer.findByPk` -/
def findCustomer (s : DBState) (cid : Nat) : Option CustomerRec :=
  s.customers.find? (fun c => c.id == cid)

/-- `Purchase.findByPk` -/
def findPurchase (s : DBState) (pid : Nat) : Option PurchaseRec :=
  s.purchases.find? (fun p => p.id == pid)

/-- `PurchaseItem.findByPk` -/
def findItem (s : DBState) (iid : Nat) : Option PurchaseItemRec :=
  s.items.find? (fun it => it.id == iid)

/-- `PurchaseItem.findAll({where: {purchase_id}})` followed by the
`items.reduce((sum, i) => sum + parseFloat(i.subtotal), 0)` of the
purchase-item after-hooks. -/
def sumSubtotals (s : DBState) (pid : Nat) : Rat :=
  ((s.items.filter (fun it => it.purchase_id == pid)).map
    (fun it => it.subtotal)).sum

/-- Sum of `final_amount` over a customer's purchases (the quantity the
customer rollup is supposed to track). -/
def custFinalSum (s : DBState) (cid : Nat) : Rat :=
  ((s.purchases.filter (fun p => p.customer_id == cid)).map
    (fun p => p.final_amount)).sum

/-- Number of purchases owned by a customer. -/
def custPurchaseCount (s : DBState) (cid : Nat) : Nat :=
  (s.purchases.filter (fun p => p.customer_id == cid)).length

/-- UPDATE of a single customer row (by primary key). -/
def replaceCustomer (s : DBState) (c : CustomerRec) : DBState :=
  { s with customers := s.customers.map (fun r => if r.id == c.id then c else r) }

/-- UPDATE of a single purchase row (by primary key). -/
def replacePurchase (s : DBState) (p : PurchaseRec) : DBState :=
  { s with purchases := s.purchases.map (fun r => if r.id == p.id then p else r) }

/-- UPDATE of a single purchase-item row (by primary key). -/
def replaceItem (s : DBState) (it : PurchaseItemRec) : DBState :=
  { s with items := s.items.map (fun r => if r.id == it.id then it else r) }

/-- Autoincrement id generation: one more than any id in use. -/
def freshId (ids : List Nat) : Nat := ids.foldr max 0 + 1

def freshPurchaseId (s : DBState) : Nat := freshId (s.purchases.map (·.id))

def freshItemId (s : DBState) : Nat := freshId (s.items.map (·.id))

/-! ## The pure pricing hooks of purchaseItem.model.js -/

/-- `PurchaseItem` `beforeCreate` hook: derives `discount_amount` (only
when `discount_percentage > 0`; otherwise the incoming value is kept)
and `subtotal`.  Runs AFTER validation, so the derived values are not
range-checked. -/
def purchaseItemBeforeCreate (it : PurchaseItemRec) : PurchaseItemRec :=
  let da :=
    if it.discount_percentage > 0 then
      it.unit_price * (it.quantity : Rat) * it.discount_percentage / 100
    else it.discount_amount
  let st := it.unit_price * (it.quantity : Rat) - da
  { it with discount_amount := da, subtotal := st }

/-- The partial update payload of an `item.update(changes)` call.  Only
caller-settable columns appear; `discount_amount` and `subtotal` are
derived by the hooks. -/
structure ItemChanges where
  purchase_id : Option Nat := none
  quantity : Option Nat := none
  unit_price : Option Rat := none
  discount_percentage : Option Rat := none
  notes : Option String := none
deriving Repr, DecidableEq

def applyItemChanges (old : PurchaseItemRec) (c : ItemChanges) : PurchaseItemRec :=
  { old with
    purchase_id := c.purchase_id.getD old.purchase_id
    quantity := c.quantity.getD old.quantity
    unit_price := c.unit_price.getD old.unit_price
    discount_percentage := c.discount_percentage.getD old.discount_percentage
    notes := c.notes.getD old.notes }

/-- Sequelize `instance.changed(f)`: the field was set to a value
different from its previous one. -/
def chg {α : Type} [DecidableEq α] (old : α) : Option α → Bool
  | some v => v != old
  | none => false

/-- `item.changed('unit_price') || item.changed('quantity') ||
item.changed('discount_percentage')` of the `beforeUpdate` hook. -/
def pricingChanged (old : PurchaseItemRec) (c : ItemChanges) : Bool :=
  chg old.unit_price c.unit_price || chg old.quantity c.quantity ||
    chg old.discount_percentage c.discount_percentage

/-- `PurchaseItem` `beforeUpdate` hook: recomputes `discount_amount`
(with an explicit `else discount_amount = 0` branch, unlike
`beforeCreate`) and `subtotal`, but only when a pricing field changed. -/
def purchaseItemBeforeUpdate (old : PurchaseItemRec) (c : ItemChanges) :
    PurchaseItemRec :=
  let it := applyItemChanges old c
  if pricingChanged old c then
    let da :=
      if it.discount_percentage > 0 then
        it.unit_price * (it.quantity : Rat) * it.discount_percentage / 100
      else 0
    { it with discount_amount := da,
              subtotal := it.unit_price * (it.quantity : Rat) - da }
  else it

/-! ## Validation blocks (`validate:` sections of the model definitions)

Sequelize runs these on the in-memory instance values BEFORE the
`beforeCreate`/`beforeUpdate` hooks. -/

/-- The `validate:` constraints of the `PurchaseItem` columns. -/
def validItemRec (it : PurchaseItemRec) : Bool :=
  1 ≤ it.quantity && it.quantity ≤ 999999 && 0 ≤ it.unit_price &&
    0 ≤ it.discount_percentage && it.discount_percentage ≤ 100 &&
    0 ≤ it.discount_amount && 0 ≤ it.subtotal

/-- The `validate:` constraints of the `Purchase` columns. -/
def validPurchaseRec (p : PurchaseRec) : Bool :=
  0 ≤ p.total_amount && 0 ≤ p.discount_amount && 0 ≤ p.tax_amount &&
    0 ≤ p.final_amount && p.purchase_number ≠ ""

/-- The `validate:` constraints of the `Customer` rollup columns. -/
def validCustomerRec (c : CustomerRec) : Bool :=
  0 ≤ c.totalSpent

/-! ## Purchase instance lifecycle (purchase.model.js) -/

/-- Partial update payload of a `purchase.update(...)` call.  The item
after-hooks pass `total_amount` and `final_amount`; the direct
amount-edit path passes `tax_amount`/`discount_amount`. -/
structure PurchaseChanges where
  total_amount : Option Rat := none
  discount_amount : Option Rat := none
  tax_amount : Option Rat := none
  final_amount : Option Rat := none
deriving Repr, DecidableEq

def applyPurchaseChanges (old : PurchaseRec) (c : PurchaseChanges) : PurchaseRec :=
  { old with
    total_amount := c.total_amount.getD old.total_amount
    discount_amount := c.discount_amount.getD old.discount_amount
    tax_amount := c.tax_amount.getD old.tax_amount
    final_amount := c.final_amount.getD old.final_amount }

/-- `Purchase` `beforeUpdate` hook: re-derives `final_amount` whenever
`total_amount`, `tax_amount` or `discount_amount` changed.  Runs after
validation, so the derived `final_amount` is not range-checked. -/
def purchaseBeforeUpdate (old upd : PurchaseRec) : PurchaseRec :=
  if upd.total_amount ≠ old.total_amount ∨ upd.tax_amount ≠ old.tax_amount ∨
      upd.discount_amount ≠ old.discount_amount then
    { upd with final_amount :=
        upd.total_amount + upd.tax_amount - upd.discount_amount }
  else upd

/-- A full `purchase.update(changes)` call: validate (pre-hook values),
`beforeUpdate` (re-derive `final_amount`), persist, then the
`afterUpdate` hook which, when `final_amount` changed, adds the
difference to the owning customer's `totalSpent` (itself a validated
`customer.update`, which throws when the result would be negative —
the purchase row keeps its new value in that case). -/
def purchaseInstanceUpdate (s : DBState) (pid : Nat) (c : PurchaseChanges) :
    DBState × Bool :=
  match findPurchase s pid with
  | none => (s, false)
  | some old =>
    let setv := applyPurchaseChanges old c
    if !validPurchaseRec setv then (s, false)
    else
      let upd := purchaseBeforeUpdate old setv
      let s1 := replacePurchase s upd
      if upd.final_amount ≠ old.final_amount then
        match findCustomer s1 old.customer_id with
        | none => (s1, true)
        | some cu =>
          let difference := upd.final_amount - old.final_amount
          let cu' := { cu with totalSpent := cu.totalSpent + difference }
          if !validCustomerRec cu' then (s1, false)
          else (replaceCustomer s1 cu', true)
      else (s1, true)

/-! ## Purchase-item after-hooks: parent re-aggregation -/

/-- Shared body of the `PurchaseItem` `afterCreate` / `afterUpdate` /
`afterDestroy` hooks: load the parent purchase (silently skipping when
absent), sum the subtotals of all items it currently owns, and persist
`total_amount` plus the recomputed `final_amount` via
`purchase.update`. -/
def recomputePurchaseTotal (s : DBState) (pid : Nat) : DBState × Bool :=
  match findPurchase s pid with
  | none => (s, true)
  | some p =>
    let totalAmount := sumSubtotals s pid
    purchaseInstanceUpdate s pid
      { total_amount := some totalAmount,
        final_amount := some (totalAmount + p.tax_amount - p.discount_amount) }

/-! ## Purchase-item operations (`PurchaseItem.create/update/destroy`) -/

/-- `PurchaseItem.create(inp)`: validation of the incoming record (the
caller must supply `subtotal` — an `allowNull: false` column — and may
supply `discount_amount`, default 0), then `beforeCreate`, INSERT (with
a fresh id, failing on a missing parent purchase: foreign key), then
`afterCreate` re-aggregation. -/
def purchaseItemCreate (s : DBState) (inp : PurchaseItemRec) : DBState × Bool :=
  if !validItemRec inp then (s, false)
  else if (findPurchase s inp.purchase_id).isNone then (s, false)
  else
    let it := purchaseItemBeforeCreate { inp with id := freshItemId s }
    let s1 := { s with items := s.items ++ [it] }
    recomputePurchaseTotal s1 it.purchase_id

/-- `item.update(changes)`: set values, validate, `beforeUpdate`
(recompute pricing only when a pricing field changed), persist, then
`afterUpdate`, which re-aggregates — against the item's (possibly new)
`purchase_id` — only when `subtotal` changed. -/
def purchaseItemUpdate (s : DBState) (iid : Nat) (c : ItemChanges) :
    DBState × Bool :=
  match findItem s iid with
  | none => (s, false)
  | some old =>
    let setv := applyItemChanges old c
    if !validItemRec setv then (s, false)
    else if (findPurchase s setv.purchase_id).isNone then (s, false)
    else
      let it := purchaseItemBeforeUpdate old c
      let s1 := replaceItem s it
      if it.subtotal ≠ old.subtotal then
        recomputePurchaseTotal s1 it.purchase_id
      else (s1, true)

/-- `item.destroy()`: DELETE the row, then the `afterDestroy`
re-aggregation of the former parent purchase. -/
def purchaseItemDestroy (s : DBState) (iid : Nat) : DBState × Bool :=
  match findItem s iid with
  | none => (s, false)
  | some old =>
    let s1 := { s with items := s.items.filter (fun r => r.id != iid) }
    recomputePurchaseTotal s1 old.purchase_id

/-! ## Purchase creation (`Purchase.create`) -/

/-- The `beforeCreate` purchase-number generator:
`PUR-${Date.now()}-${Math.floor(Math.random()*1000)}`. -/
def genPurchaseNumber (now rand : Nat) : String :=
  "PUR-" ++ toString now ++ "-" ++ toString rand

/-- The record handed to `Purchase.create`.  `purchase_number` and
`final_amount` are `allowNull: false` columns without defaults, so the
caller may leave them out only at the price of a validation error. -/
structure PurchaseInput where
  customer_id : Nat
  purchase_number : Option String := none
  total_amount : Rat
  discount_amount : Rat := 0
  tax_amount : Rat := 0
  final_amount : Option Rat := none
  purchase_date : Nat := 0
deriving Repr, DecidableEq

/-- Validation of a create payload: the `min: 0` checks plus the
`allowNull: false` / `notEmpty` requirements, run BEFORE `beforeCreate`
(so a missing `purchase_number` is rejected before the generator could
fill it in). -/
def validPurchaseInput (inp : PurchaseInput) : Bool :=
  0 ≤ inp.total_amount && 0 ≤ inp.discount_amount && 0 ≤ inp.tax_amount &&
    (match inp.purchase_number with
     | some n => n ≠ ""
     | none => false) &&
    (match inp.final_amount with
     | some f => (0 : Rat) ≤ f
     | none => false)

/-- `Purchase.create(inp)` with `Date.now()` and the `Math.random`
draw passed in as oracles: validate, `beforeCreate` (generate the
number when the field is falsy; derive `final_amount`), INSERT
(enforcing the foreign key on `customer_id` and the unique index on
`purchase_number`), then `afterCreate`, which increments the owning
customer's `totalPurchases`, adds `final_amount` to `totalSpent` and
overwrites `lastPurchaseDate` — a validated `customer.update` that
throws when the new `totalSpent` would be negative (the purchase row
survives in that case). -/
def purchaseCreate (s : DBState) (inp : PurchaseInput) (now rand : Nat) :
    DBState × Bool :=
  if !validPurchaseInput inp then (s, false)
  else
    let num :=
      match inp.purchase_number with
      | some n => if n = "" then genPurchaseNumber now rand else n
      | none => genPurchaseNumber now rand
    let finalv := inp.total_amount + inp.tax_amount - inp.discount_amount
    if (findCustomer s inp.customer_id).isNone then (s, false)
    else if s.purchases.any (fun p => p.purchase_number == num) then (s, false)
    else
      let p : PurchaseRec :=
        { id := freshPurchaseId s, customer_id := inp.customer_id,
          purchase_number := num, total_amount := inp.total_amount,
          discount_amount := inp.discount_amount, tax_amount := inp.tax_amount,
          final_amount := finalv, purchase_date := inp.purchase_date }
      let s1 := { s with purchases := s.purchases ++ [p] }
      match findCustomer s1 p.customer_id with
      | none => (s1, true)
      | some cu =>
        let cu' := { cu with
          totalPurchases := cu.totalPurchases + 1,
          totalSpent := cu.totalSpent + finalv,
          lastPurchaseDate := p.purchase_date }
        if !validCustomerRec cu' then (s1, false)
        else (replaceCustomer s1 cu', true)

/-! ## The operation alphabet and sequence runners -/

/-- One ledger-mutating request, as the request handlers drive the
models: purchase creation, a direct edit of the purchase-level
tax/discount amounts, and item create/update/delete. -/
inductive CrmOp where
  | pcreate (inp : PurchaseInput) (now rand : Nat)
  | pamounts (pid : Nat) (tax disc : Option Rat)
  | icreate (inp : PurchaseItemRec)
  | iupdate (iid : Nat) (c : ItemChanges)
  | idestroy (iid : Nat)
deriving Repr, DecidableEq

def runOp (s : DBState) : CrmOp → DBState × Bool
  | .pcreate inp now rand => purchaseCreate s inp now rand
  | .pamounts pid tax disc =>
      purchaseInstanceUpdate s pid { tax_amount := tax, discount_amount := disc }
  | .icreate inp => purchaseItemCreate s inp
  | .iupdate iid c => purchaseItemUpdate s iid c
  | .idestroy iid => purchaseItemDestroy s iid

/-- Run a sequence of operations, requiring each one to complete its
full propagation chain (`none` as soon as one throws). -/
def runOps (s : DBState) : List CrmOp → Option DBState
  | [] => some s
  | op :: rest =>
    match runOp s op with
    | (s', true) => runOps s' rest
    | (_, false) => none

/-- Run a sequence of operations the way the server does: a failed
request leaves its partial effects and the next request still runs. -/
def runAll (s : DBState) : List CrmOp → DBState
  | [] => s
  | op :: rest => runAll (runOp s op).1 rest

/-! ## Well-formedness: primary keys are unique (as in the database). -/

def WF (s : DBState) : Prop :=
  (s.customers.map (·.id)).Nodup ∧ (s.purchases.map (·.id)).Nodup ∧
    (s.items.map (·.id)).Nodup

instance : DecidablePred WF := fun s => by
  unfold WF; infer_instance

/-! ## Stock Adjustment Path (product.controller.js `bulkUpdateStock`) -/

/-- One row of `product_variants` (productVariant.model.js), restricted
to the fields `bulkUpdateStock` touches.  The `stock` column is a plain
INTEGER with `defaultValue: 0` and no `validate:` block. -/
structure VariantRec where
  id : Nat
  stock : Int
deriving Repr, DecidableEq

/-- One entry of the `updates` array: `{ variantId, newStock }`. -/
structure StockUpdate where
  variantId : Nat
  newStock : Int
deriving Repr, DecidableEq

/-- One entry of the `results` array. -/
structure StockResultRec where
  variantId : Nat
  success : Bool
  error : Option String
deriving Repr, DecidableEq

def findVariant (vs : List VariantRec) (vid : Nat) : Option VariantRec :=
  vs.find? (fun v => v.id == vid)

def setStock (vs : List VariantRec) (vid : Nat) (n : Int) : List VariantRec :=
  vs.map (fun v => if v.id == vid then { v with stock := n } else v)

/-- The `for (const update of updates)` loop of `bulkUpdateStock`: each
entry independently looked up and applied; a missing variant yields a
`success: false, error: 'Variant not found'` entry; nothing rejects a
negative `newStock`; no entry's failure stops the loop. -/
def bulkUpdateStock (vs : List VariantRec) :
    List StockUpdate → List VariantRec × List StockResultRec
  | [] => (vs, [])
  | u :: rest =>
    match findVariant vs u.variantId with
    | some _ =>
      let vs' := setStock vs u.variantId u.newStock
      let (vsFinal, results) := bulkUpdateStock vs' rest
      (vsFinal, { variantId := u.variantId, success := true, error := none } :: results)
    | none =>
      let (vsFinal, results) := bulkUpdateStock vs rest
      (vsFinal,
        { variantId := u.variantId, success := false,
          error := some "Variant not found" } :: results)

/-! ## Interleaving phases of an `updateItem` request

`purchaseItemUpdate` is not atomic: the UPDATE of the item row, the
`findAll` read of the item set and the `purchase.update` write are
separate awaited database calls with no enclosing transaction or lock.
A concurrent schedule of two `updateItem` requests is any interleaving
of each request's three phases; the phases below are those units, cut
from `purchaseItemUpdate` verbatim. -/

/-- Phase 1 — persist the item row (validation plus `beforeUpdate`),
returning the new state and the updated record. -/
def itemWritePhase (s : DBState) (iid : Nat) (c : ItemChanges) :
    DBState × Option PurchaseItemRec :=
  match findItem s iid with
  | none => (s, none)
  | some old =>
    let setv := applyItemChanges old c
    if !validItemRec setv then (s, none)
    else
      let it := purchaseItemBeforeUpdate old c
      (replaceItem s it, some it)

/-- Phase 2 — the `findAll` + `reduce` read of the parent's item set. -/
def totalReadPhase (s : DBState) (pid : Nat) : Rat :=
  sumSubtotals s pid

/-- Phase 3 — the `purchase.update({total_amount, final_amount})`
write, carrying the total that phase 2 read (possibly stale by now). -/
def totalWritePhase (s : DBState) (pid : Nat) (totalAmount : Rat) : DBState :=
  match findPurchase s pid with
  | none => s
  | some p =>
    (purchaseInstanceUpdate s pid
      { total_amount := some totalAmount,
        final_amount := some (totalAmount + p.tax_amount - p.discount_amount) }).1

/-! ## The specified invariants -/

/-- §3 Purchase invariant: `total_amount == sum(subtotal of all owned items)`. -/
def invTotal (s : DBState) (pid : Nat) : Prop :=
  ∀ pr ∈ s.purchases, pr.id = pid → pr.total_amount = sumSubtotals s pid

/-- §3 Customer invariant: `totalSpent == sum(final_amount)` and
`totalPurchases == count(purchases)` over the customer's purchases. -/
def invCust (s : DBState) (cid : Nat) : Prop :=
  ∀ cu ∈ s.customers, cu.id = cid →
    cu.totalSpent = custFinalSum s cid ∧
      cu.totalPurchases = custPurchaseCount s cid

/-- §4.4 invariant: every stored `totalSpent` is non-negative. -/
def csNonneg (s : DBState) : Prop :=
  ∀ cu ∈ s.customers, 0 ≤ cu.totalSpent

instance : ∀ s p, Decidable (invTotal s p) := fun s p => by
  unfold invTotal; infer_instance

instance : ∀ s c, Decidable (invCust s c) := fun s c => by
  unfold invCust; infer_instance

instance : ∀ s, Decidable (csNonneg s) := fun s => by
  unfold csNonneg; infer_instance

/-- The operations the purchase-total claim quantifies over: item
create/update/delete against a fixed owning purchase (an update does
not reassign `purchase_id`). -/
def itemOpNoMove : CrmOp → Bool
  | .icreate _ => true
  | .iupdate _ c => c.purchase_id.isNone
  | .idestroy _ => true
  | _ => false

/-- The customer row written by the `Purchase` `afterCreate` hook. -/
def rollupApplyNew (cu : CustomerRec) (p : PurchaseRec) : CustomerRec :=
  { cu with totalPurchases := cu.totalPurchases + 1,
            totalSpent := cu.totalSpent + p.final_amount,
            lastPurchaseDate := p.purchase_date }

/-- A rational is representable with two decimal digits. -/
def isTwoDecimal (q : Rat) : Prop := (q * 100).den = 1

instance : DecidablePred isTwoDecimal := fun q => by
  unfold isTwoDecimal; infer_instance

/-! ## Concrete demonstration data for the claims -/

def c1State : DBState :=
  { customers := [{ id := 1, totalPurchases := 1, totalSpent := 5,
                    lastPurchaseDate := 0 }],
    purchases := [{ id := 1, customer_id := 1, purchase_number := "PUR-1",
                    total_amount := 0, discount_amount := 5, tax_amount := 10,
                    final_amount := 5, purchase_date := 0 }],
    items := [] }

def c1Ops : List CrmOp :=
  [CrmOp.icreate { id := 0, purchase_id := 1, product_id := 1, quantity := 2,
                   unit_price := 100, discount_percentage := 10,
                   discount_amount := 0, subtotal := 0, notes := "" },
   CrmOp.iupdate 1 { quantity := some 3 },
   CrmOp.idestroy 1]

def c1Final : DBState := (runOps c1State c1Ops).getD c1State

def c2State : DBState :=
  { customers := [{ id := 1, totalPurchases := 1, totalSpent := 5,
                    lastPurchaseDate := 0 }],
    purchases := [{ id := 1, customer_id := 1, purchase_number := "PUR-1",
                    total_amount := 0, discount_amount := 5, tax_amount := 10,
                    final_amount := 5, purchase_date := 0 }],
    items := [] }

def c2Ops : List CrmOp :=
  [CrmOp.pcreate { customer_id := 1, purchase_number := some "PUR-2",
                   total_amount := 0, discount_amount := 0, tax_amount := 7,
                   final_amount := some 7, purchase_date := 9 } 11 22,
   CrmOp.icreate { id := 0, purchase_id := 1, product_id := 1, quantity := 2,
                   unit_price := 100, discount_percentage := 10,
                   discount_amount := 0, subtotal := 0, notes := "" },
   CrmOp.pamounts 1 (some 3) none]

def c2Final : DBState := (runOps c2State c2Ops).getD c2State

def c3State : DBState :=
  { customers := [{ id := 1, totalPurchases := 1, totalSpent := 500,
                    lastPurchaseDate := 0 }],
    purchases := [{ id := 1, customer_id := 1, purchase_number := "PUR-1",
                    total_amount := 100, discount_amount := 0, tax_amount := 0,
                    final_amount := 100, purchase_date := 0 }],
    items := [] }

def c4WitOld : PurchaseItemRec :=
  { id := 1, purchase_id := 1, product_id := 1, quantity := 2,
    unit_price := 100, discount_percentage := 10, discount_amount := 20,
    subtotal := 180, notes := "" }

def c4WitChanges : ItemChanges := { quantity := some 3 }

def c4WitInp : PurchaseItemRec :=
  { id := 0, purchase_id := 1, product_id := 1, quantity := 2,
    unit_price := 100, discount_percentage := 10, discount_amount := 0,
    subtotal := 0, notes := "" }

def c4ZeroPctCreate : PurchaseItemRec :=
  { id := 1, purchase_id := 1, product_id := 1, quantity := 2,
    unit_price := 10, discount_percentage := 0, discount_amount := 3,
    subtotal := 0, notes := "" }

def c4HalfPctCreate : PurchaseItemRec :=
  { id := 1, purchase_id := 1, product_id := 1, quantity := 1,
    unit_price := 1, discount_percentage := 1/2, discount_amount := 0,
    subtotal := 0, notes := "" }

def c5State : DBState :=
  { customers := [{ id := 1, totalPurchases := 1, totalSpent := 30,
                    lastPurchaseDate := 0 }],
    purchases := [{ id := 1, customer_id := 1, purchase_number := "P1",
                    total_amount := 30, discount_amount := 0, tax_amount := 0,
                    final_amount := 30, purchase_date := 0 }],
    items := [
      { id := 1, purchase_id := 1, product_id := 1, quantity := 1,
        unit_price := 10, discount_percentage := 0, discount_amount := 0,
        subtotal := 10, notes := "" },
      { id := 2, purchase_id := 1, product_id := 1, quantity := 2,
        unit_price := 10, discount_percentage := 0, discount_amount := 0,
        subtotal := 20, notes := "" }] }

def c5OpA : CrmOp := CrmOp.iupdate 1 { quantity := some 5 }

def c5OpB : CrmOp := CrmOp.iupdate 2 { quantity := some 7 }

def c5AfterA : DBState := (itemWritePhase c5State 1 { quantity := some 5 }).1

def c5ReadA : Rat := totalReadPhase c5AfterA 1

def c5AfterB : DBState := (itemWritePhase c5AfterA 2 { quantity := some 7 }).1

def c5ReadB : Rat := totalReadPhase c5AfterB 1

/-- One interleaving the unlocked hooks allow: both item rows are
written, request B re-aggregates and persists its total, then request A
persists the total it read BEFORE B's item write. -/
def c5Interleaved : DBState :=
  totalWritePhase (totalWritePhase c5AfterB 1 c5ReadB) 1 c5ReadA

def c5SerialAB : DBState := (runOps c5State [c5OpA, c5OpB]).getD c5State

def c5SerialBA : DBState := (runOps c5State [c5OpB, c5OpA]).getD c5State

def c6State : DBState :=
  { customers := [{ id := 1, totalPurchases := 1, totalSpent := 10,
                    lastPurchaseDate := 0 }],
    purchases := [{ id := 1, customer_id := 1, purchase_number := "P1",
                    total_amount := 10, discount_amount := 0, tax_amount := 0,
                    final_amount := 10, purchase_date := 0 }],
    items := [{ id := 1, purchase_id := 1, product_id := 1, quantity := 1,
                unit_price := 10, discount_percentage := 0,
                discount_amount := 0, subtotal := 10, notes := "old" }] }

def c6OldItem : PurchaseItemRec :=
  { id := 1, purchase_id := 1, product_id := 1, quantity := 1,
    unit_price := 10, discount_percentage := 0, discount_amount := 0,
    subtotal := 10, notes := "old" }

def c6Changes : ItemChanges := { notes := some "edited" }

def c7State : DBState :=
  { customers := [{ id := 1, totalPurchases := 1, totalSpent := 5,
                    lastPurchaseDate := 0 }],
    purchases := [{ id := 1, customer_id := 1, purchase_number := "P1",
                    total_amount := 10, discount_amount := 0, tax_amount := 0,
                    final_amount := 10, purchase_date := 0 }],
    items := [] }

def c7Op : CrmOp := CrmOp.pamounts 1 none (some 9)

def c8State : DBState :=
  { customers := [{ id := 1, totalPurchases := 0, totalSpent := 0,
                    lastPurchaseDate := 0 }],
    purchases := [], items := [] }

def c8NoNumberInput : PurchaseInput :=
  { customer_id := 1, purchase_number := none, total_amount := 0,
    discount_amount := 0, tax_amount := 0, final_amount := some 0,
    purchase_date := 0 }

def c8WitInput : PurchaseInput :=
  { customer_id := 1, purchase_number := some "PUR-W", total_amount := 5,
    discount_amount := 0, tax_amount := 0, final_amount := some 5,
    purchase_date := 0 }

def c8WitFinal : DBState := (purchaseCreate c8State c8WitInput 3 4).1

def c9Variants : List VariantRec := [{ id := 1, stock := 10 }]

def c9Updates : List StockUpdate :=
  [{ variantId := 2, newStock := 50 }, { variantId := 1, newStock := 7 }]

def c10State : DBState :=
  { customers := [{ id := 1, totalPurchases := 2, totalSpent := 30,
                    lastPurchaseDate := 0 }],
    purchases := [
      { id := 1, customer_id := 1, purchase_number := "P1",
        total_amount := 30, discount_amount := 0, tax_amount := 0,
        final_amount := 30, purchase_date := 0 },
      { id := 2, customer_id := 1, purchase_number := "P2",
        total_amount := 0, discount_amount := 0, tax_amount := 0,
        final_amount := 0, purchase_date := 0 }],
    items := [
      { id := 1, purchase_id := 1, product_id := 1, quantity := 1,
        unit_price := 10, discount_percentage := 0, discount_amount := 0,
        subtotal := 10, notes := "" },
      { id := 2, purchase_id := 1, product_id := 1, quantity := 2,
        unit_price := 10, discount_percentage := 0, discount_amount := 0,
        subtotal := 20, notes := "" }] }

def c10OldItem : PurchaseItemRec :=
  { id := 1, purchase_id := 1, product_id := 1, quantity := 1,
    unit_price := 10, discount_percentage := 0, discount_amount := 0,
    subtotal := 10, notes := "" }

def c10Move : ItemChanges := { purchase_id := some 2, quantity := some 5 }

def c10StaleRow : PurchaseRec :=
  { id := 1, customer_id := 1, purchase_number := "P1", total_amount := 30,
    discount_amount := 0, tax_amount := 0, final_amount := 30,
    purchase_date := 0 }

/-! ## Generic list bookkeeping lemmas

The tables are lists of records keyed by an id; a row UPDATE is a `map`
that rewrites the row with the given key, an INSERT is an append, a
DELETE is a `filter`.  The lemmas below track how keyed sums, counts
and membership move under these operations. -/

section ListHelp

variable {α : Type}

theorem find?_decomp (p : α → Bool) (l : List α) (a : α)
    (h : l.find? p = some a) :
    ∃ l₁ l₂, l = l₁ ++ a :: l₂ ∧ (∀ r ∈ l₁, p r = false) ∧ p a = true := by
  induction l with
  | nil => simp [List.find?] at h
  | cons x xs ih =>
    by_cases hx : p x
    · refine ⟨[], xs, ?_, by simp, ?_⟩
      · simp only [List.find?, hx] at h
        simp [← Option.some_inj.mp h]
      · simp only [List.find?, hx] at h
        rw [← Option.some_inj.mp h]; exact hx
    · simp only [List.find?, Bool.of_not_eq_true hx] at h
      obtain ⟨l₁, l₂, hdec, hl₁, hpa⟩ := ih h
      exact ⟨x :: l₁, l₂, by simp [hdec], by
        intro r hr
        rcases List.mem_cons.mp hr with rfl | hr
        · exact Bool.of_not_eq_true hx
        · exact hl₁ r hr, hpa⟩

theorem keyed_decomp (key : α → Nat) (k : Nat) (l : List α) (a : α)
    (hnd : (l.map key).Nodup)
    (h : l.find? (fun r => key r == k) = some a) :
    ∃ l₁ l₂, l = l₁ ++ a :: l₂ ∧ (∀ r ∈ l₁, key r ≠ k) ∧
      (∀ r ∈ l₂, key r ≠ k) ∧ key a = k := by
  obtain ⟨l₁, l₂, hdec, hl₁, hpa⟩ := find?_decomp _ l a h
  have hka : key a = k := by simpa using hpa
  refine ⟨l₁, l₂, hdec, ?_, ?_, hka⟩
  · intro r hr
    have := hl₁ r hr
    simpa using this
  · intro r hr hrk
    subst hdec
    rw [List.map_append, List.map_cons] at hnd
    have h2 := (List.nodup_append.mp hnd).2.1
    have : key a ∉ l₂.map key := (List.nodup_cons.mp h2).1
    exact this (by rw [hka, ← hrk]; exact List.mem_map_of_mem key hr)

theorem sum_filter_append_single (q : α → Bool) (v : α → Rat) (l : List α)
    (a : α) :
    (((l ++ [a]).filter q).map v).sum
      = ((l.filter q).map v).sum + (if q a then v a else 0) := by
  by_cases hqa : q a <;>
    simp [List.filter_append, List.filter_cons, hqa]

theorem length_filter_append_single (q : α → Bool) (l : List α) (a : α) :
    ((l ++ [a]).filter q).length
      = (l.filter q).length + (if q a then 1 else 0) := by
  by_cases hqa : q a <;>
    simp [List.filter_append, List.filter_cons, hqa]

theorem map_replace_no_match (key : α → Nat) (k : Nat) (new : α) (l : List α)
    (hl : ∀ r ∈ l, key r ≠ k) :
    l.map (fun r => if key r == k then new else r) = l := by
  induction l with
  | nil => rfl
  | cons x xs ih =>
    have hx : key x ≠ k := hl x (by simp)
    simp only [List.map_cons]
    rw [if_neg (by simpa using hx), ih (fun r hr => hl r (by simp [hr]))]

/-- A keyed row replacement rewrites exactly the unique matching row. -/
theorem map_replace_decomp (key : α → Nat) (k : Nat) (new : α) (l : List α)
    (old : α) (hnd : (l.map key).Nodup)
    (hfind : l.find? (fun r => key r == k) = some old) :
    ∃ l₁ l₂, l = l₁ ++ old :: l₂ ∧
      l.map (fun r => if key r == k then new else r) = l₁ ++ new :: l₂ ∧
      (∀ r ∈ l₁, key r ≠ k) ∧ (∀ r ∈ l₂, key r ≠ k) ∧ key old = k := by
  obtain ⟨l₁, l₂, hdec, h₁, h₂, hk⟩ := keyed_decomp key k l old hnd hfind
  refine ⟨l₁, l₂, hdec, ?_, h₁, h₂, hk⟩
  subst hdec
  rw [List.map_append, List.map_cons, map_replace_no_match key k new l₁ h₁,
    map_replace_no_match key k new l₂ h₂, if_pos (by simpa using hk)]

theorem sum_filter_replace (key : α → Nat) (k : Nat) (q : α → Bool)
    (v : α → Rat) (l : List α) (old new : α) (hnd : (l.map key).Nodup)
    (hfind : l.find? (fun r => key r == k) = some old) :
    (((l.map (fun r => if key r == k then new else r)).filter q).map v).sum
      = ((l.filter q).map v).sum + (if q new then v new else 0)
          - (if q old then v old else 0) := by
  obtain ⟨l₁, l₂, hdec, hmap, -, -, -⟩ :=
    map_replace_decomp key k new l old hnd hfind
  rw [hmap, hdec]
  by_cases hqo : q old <;> by_cases hqn : q new <;>
    simp [List.filter_append, List.filter_cons, hqo, hqn] <;> ring

theorem length_filter_replace (key : α → Nat) (k : Nat) (q : α → Bool)
    (l : List α) (old new : α) (hnd : (l.map key).Nodup)
    (hfind : l.find? (fun r => key r == k) = some old)
    (hq : q new = q old) :
    ((l.map (fun r => if key r == k then new else r)).filter q).length
      = (l.filter q).length := by
  obtain ⟨l₁, l₂, hdec, hmap, -, -, -⟩ :=
    map_replace_decomp key k new l old hnd hfind
  rw [hmap, hdec]
  by_cases hqo : q old <;>
    simp [List.filter_append, List.filter_cons, hqo, hq]

theorem sum_filter_erase (key : α → Nat) (k : Nat) (q : α → Bool)
    (v : α → Rat) (l : List α) (old : α) (hnd : (l.map key).Nodup)
    (hfind : l.find? (fun r => key r == k) = some old) :
    (((l.filter (fun r => key r != k)).filter q).map v).sum
      = ((l.filter q).map v).sum - (if q old then v old else 0) := by
  obtain ⟨l₁, l₂, hdec, -, h₁, h₂, hk⟩ :=
    map_replace_decomp key k old l old hnd hfind
  have e₁ : l₁.filter (fun r => key r != k) = l₁ :=
    List.filter_eq_self.mpr (fun r hr => by simpa using h₁ r hr)
  have e₂ : l₂.filter (fun r => key r != k) = l₂ :=
    List.filter_eq_self.mpr (fun r hr => by simpa using h₂ r hr)
  rw [hdec, List.filter_append, List.filter_cons, e₁, e₂]
  by_cases hqo : q old <;>
    simp [List.filter_append, List.filter_cons, hqo, hk] <;> ring

/-- Every row of a keyed replacement is the new row or an untouched old row. -/
theorem mem_map_replace (key : α → Nat) (k : Nat) (new : α) (l : List α)
    (r' : α)
    (h : r' ∈ l.map (fun r => if key r == k then new else r)) :
    r' = new ∨ (r' ∈ l ∧ key r' ≠ k) := by
  obtain ⟨r, hr, hr'⟩ := List.mem_map.mp h
  by_cases hk : key r = k
  · left; rw [← hr', if_pos (by simpa using hk)]
  · right
    rw [← hr', if_neg (by simpa using hk)]
    exact ⟨hr, hk⟩

theorem find?_map_replace (key : α → Nat) (k : Nat) (new : α) (l : List α)
    (hnew : key new = k) (k' : Nat) :
    (l.map (fun r => if key r == k then new else r)).find?
        (fun r => key r == k')
      = (l.find? (fun r => key r == k')).map
          (fun r => if key r == k then new else r) := by
  rw [List.find?_map]
  have hp : ((fun r => key r == k') ∘ fun r => if key r == k then new else r)
      = (fun r => key r == k') := by
    funext r
    by_cases hk : key r = k
    · simp [Function.comp, hk, hnew]
    · simp [Function.comp, if_neg (by simpa using hk)]
  rw [hp]

theorem le_foldr_max (l : List Nat) : ∀ x ∈ l, x ≤ l.foldr max 0 := by
  induction l with
  | nil => simp
  | cons y ys ih =>
    intro x hx
    rcases List.mem_cons.mp hx with rfl | hx
    · exact le_max_left _ _
    · exact le_trans (ih x hx) (le_max_right _ _)

theorem freshId_not_mem (ids : List Nat) : freshId ids ∉ ids := by
  intro h
  have := le_foldr_max ids _ h
  simp only [freshId] at this
  omega

theorem nodup_append_fresh (key : α → Nat) (l : List α) (a : α)
    (hnd : (l.map key).Nodup) (ha : key a ∉ l.map key) :
    ((l ++ [a]).map key).Nodup := by
  rw [List.map_append]
  simp [List.nodup_append, hnd, ha]

theorem nodup_map_replace (key : α → Nat) (k : Nat) (new : α) (l : List α)
    (hnew : key new = k) (hnd : (l.map key).Nodup) :
    ((l.map (fun r => if key r == k then new else r)).map key).Nodup := by
  rw [List.map_map]
  have : (key ∘ fun r => if key r == k then new else r) = key := by
    funext r
    by_cases hk : key r = k
    · simp [Function.comp, hk, hnew]
    · simp [Function.comp, if_neg (by simpa using hk)]
  rw [this]; exact hnd

theorem nodup_filter_key (key : α → Nat) (p : α → Bool) (l : List α)
    (hnd : (l.map key).Nodup) : ((l.filter p).map key).Nodup :=
  List.Nodup.sublist (List.Sublist.map key (List.filter_sublist l)) hnd

end ListHelp

/-! ## Structural facts about the lifecycle functions -/

theorem applyPurchaseChanges_id (old : PurchaseRec) (c : PurchaseChanges) :
    (applyPurchaseChanges old c).id = old.id := rfl

theorem applyPurchaseChanges_customer (old : PurchaseRec) (c : PurchaseChanges) :
    (applyPurchaseChanges old c).customer_id = old.customer_id := rfl

theorem purchaseBeforeUpdate_id (old upd : PurchaseRec) :
    (purchaseBeforeUpdate old upd).id = upd.id := by
  unfold purchaseBeforeUpdate; split <;> rfl

theorem purchaseBeforeUpdate_customer (old upd : PurchaseRec) :
    (purchaseBeforeUpdate old upd).customer_id = upd.customer_id := by
  unfold purchaseBeforeUpdate; split <;> rfl

theorem purchaseBeforeUpdate_total (old upd : PurchaseRec) :
    (purchaseBeforeUpdate old upd).total_amount = upd.total_amount := by
  unfold purchaseBeforeUpdate; split <;> rfl

theorem findPurchase_some_id (s : DBState) (pid : Nat) (p : PurchaseRec)
    (h : findPurchase s pid = some p) : p.id = pid := by
  have := List.find?_some h
  simpa using this

theorem findCustomer_some_id (s : DBState) (cid : Nat) (c : CustomerRec)
    (h : findCustomer s cid = some c) : c.id = cid := by
  have := List.find?_some h
  simpa using this

theorem findItem_some_id (s : DBState) (iid : Nat) (it : PurchaseItemRec)
    (h : findItem s iid = some it) : it.id = iid := by
  have := List.find?_some h
  simpa using this

theorem findPurchase_some_mem (s : DBState) (pid : Nat) (p : PurchaseRec)
    (h : findPurchase s pid = some p) : p ∈ s.purchases :=
  List.mem_of_find?_eq_some h

theorem findCustomer_some_mem (s : DBState) (cid : Nat) (c : CustomerRec)
    (h : findCustomer s cid = some c) : c ∈ s.customers :=
  List.mem_of_find?_eq_some h

theorem findItem_some_mem (s : DBState) (iid : Nat) (it : PurchaseItemRec)
    (h : findItem s iid = some it) : it ∈ s.items :=
  List.mem_of_find?_eq_some h

theorem findCustomer_none_not_mem (s : DBState) (cid : Nat)
    (h : findCustomer s cid = none) :
    ∀ cu ∈ s.customers, cu.id ≠ cid := by
  intro cu hcu
  have := List.find?_eq_none.mp h cu hcu
  simpa using this

theorem findPurchase_none_not_mem (s : DBState) (pid : Nat)
    (h : findPurchase s pid = none) :
    ∀ pr ∈ s.purchases, pr.id ≠ pid := by
  intro pr hpr
  have := List.find?_eq_none.mp h pr hpr
  simpa using this

/-- Complete characterization of a successful `purchase.update` chain:
items untouched, the target row rewritten through `beforeUpdate`, and
the customer table either untouched (final unchanged, or owner row
missing) or with the final-amount difference added to the owner's
`totalSpent`. -/
theorem purchaseInstanceUpdate_spec (s : DBState) (pid : Nat)
    (c : PurchaseChanges) (old : PurchaseRec)
    (hf : findPurchase s pid = some old) (upd : PurchaseRec)
    (hupd : upd = purchaseBeforeUpdate old (applyPurchaseChanges old c))
    (s' : DBState) (hrun : purchaseInstanceUpdate s pid c = (s', true)) :
    s'.items = s.items ∧
    s'.purchases = s.purchases.map
      (fun r => if r.id == old.id then upd else r) ∧
    ((upd.final_amount = old.final_amount ∧ s'.customers = s.customers) ∨
     (findCustomer s old.customer_id = none ∧ s'.customers = s.customers) ∨
     (∃ cu, findCustomer s old.customer_id = some cu ∧
        0 ≤ cu.totalSpent + (upd.final_amount - old.final_amount) ∧
        s'.customers = s.customers.map (fun r =>
          if r.id == cu.id then
            { cu with totalSpent :=
                cu.totalSpent + (upd.final_amount - old.final_amount) }
          else r))) := by
  have hid : upd.id = old.id := by
    rw [hupd, purchaseBeforeUpdate_id, applyPurchaseChanges_id]
  unfold purchaseInstanceUpdate at hrun
  rw [hf] at hrun
  simp only [← hupd] at hrun
  by_cases hv : validPurchaseRec (applyPurchaseChanges old c)
  · rw [if_neg (by simp [hv])] at hrun
    by_cases hfin : upd.final_amount = old.final_amount
    · rw [if_neg (by simp [hfin])] at hrun
      have h1 : replacePurchase s upd = s' := congrArg Prod.fst hrun
      subst h1
      refine ⟨rfl, ?_, Or.inl ⟨hfin, rfl⟩⟩
      simp [replacePurchase, hid]
    · rw [if_pos hfin] at hrun
      have hfc : findCustomer (replacePurchase s upd) old.customer_id
          = findCustomer s old.customer_id := rfl
      rw [hfc] at hrun
      cases hcu : findCustomer s old.customer_id with
      | none =>
        rw [hcu] at hrun
        dsimp only at hrun
        have h1 : replacePurchase s upd = s' := congrArg Prod.fst hrun
        subst h1
        refine ⟨rfl, ?_, Or.inr (Or.inl ⟨rfl, rfl⟩)⟩
        simp [replacePurchase, hid]
      | some cu =>
        rw [hcu] at hrun
        dsimp only at hrun
        by_cases hvc : validCustomerRec
            { cu with totalSpent :=
                cu.totalSpent + (upd.final_amount - old.final_amount) }
        · rw [if_neg (by simp [hvc])] at hrun
          have h1 : replaceCustomer (replacePurchase s upd)
              { cu with totalSpent :=
                  cu.totalSpent + (upd.final_amount - old.final_amount) }
              = s' := congrArg Prod.fst hrun
          subst h1
          refine ⟨rfl, ?_, Or.inr (Or.inr ⟨cu, rfl, ?_, ?_⟩)⟩
          · simp [replaceCustomer, replacePurchase, hid]
          · simpa [validCustomerRec] using hvc
          · simp [replaceCustomer, replacePurchase]
        · rw [if_pos (by simp [hvc])] at hrun
          exact absurd (congrArg Prod.snd hrun) (by simp)
  · rw [if_pos (by simp [hv])] at hrun
    exact absurd (congrArg Prod.snd hrun) (by simp)

theorem purchaseItemBeforeCreate_id (it : PurchaseItemRec) :
    (purchaseItemBeforeCreate it).id = it.id := rfl

theorem purchaseItemBeforeCreate_purchase (it : PurchaseItemRec) :
    (purchaseItemBeforeCreate it).purchase_id = it.purchase_id := rfl

theorem applyItemChanges_id (old : PurchaseItemRec) (c : ItemChanges) :
    (applyItemChanges old c).id = old.id := rfl

theorem purchaseItemBeforeUpdate_id (old : PurchaseItemRec) (c : ItemChanges) :
    (purchaseItemBeforeUpdate old c).id = old.id := by
  by_cases h : pricingChanged old c <;>
    simp [purchaseItemBeforeUpdate, h, applyItemChanges]

theorem purchaseItemBeforeUpdate_purchase (old : PurchaseItemRec)
    (c : ItemChanges) :
    (purchaseItemBeforeUpdate old c).purchase_id
      = (applyItemChanges old c).purchase_id := by
  by_cases h : pricingChanged old c <;>
    simp [purchaseItemBeforeUpdate, h]

theorem sumSubtotals_eq_of_items (s s' : DBState) (h : s'.items = s.items)
    (pid : Nat) : sumSubtotals s' pid = sumSubtotals s pid := by
  unfold sumSubtotals; rw [h]

theorem custFinalSum_eq_of_purchases (s s' : DBState)
    (h : s'.purchases = s.purchases) (cid : Nat) :
    custFinalSum s' cid = custFinalSum s cid := by
  unfold custFinalSum; rw [h]

theorem recomputePurchaseTotal_of_none (s : DBState) (pid : Nat)
    (h : findPurchase s pid = none) :
    recomputePurchaseTotal s pid = (s, true) := by
  unfold recomputePurchaseTotal; rw [h]

theorem recomputePurchaseTotal_of_some (s : DBState) (pid : Nat)
    (p : PurchaseRec) (h : findPurchase s pid = some p) :
    recomputePurchaseTotal s pid = purchaseInstanceUpdate s pid
      { total_amount := some (sumSubtotals s pid),
        final_amount :=
          some (sumSubtotals s pid + p.tax_amount - p.discount_amount) } := by
  unfold recomputePurchaseTotal; rw [h]

/-- A completed re-aggregation stores the derived sum on the target
purchase, leaves items alone and leaves other purchases' rows alone. -/
theorem recompute_invTotal_pres (s : DBState) (pid p : Nat) (s' : DBState)
    (hrun : recomputePurchaseTotal s pid = (s', true))
    (hinv : p ≠ pid → invTotal s p) : invTotal s' p := by
  cases hf : findPurchase s pid with
  | none =>
    rw [recomputePurchaseTotal_of_none s pid hf] at hrun
    have hs : s = s' := congrArg Prod.fst hrun
    subst hs
    by_cases hp : p = pid
    · subst hp
      intro pr hpr hid
      exact absurd hid (findPurchase_none_not_mem s p hf pr hpr)
    · exact hinv hp
  | some old =>
    rw [recomputePurchaseTotal_of_some s pid old hf] at hrun
    obtain ⟨hitems, hpur, -⟩ :=
      purchaseInstanceUpdate_spec s pid _ old hf _ rfl s' hrun
    have holdid : old.id = pid := findPurchase_some_id s pid old hf
    have hupdid :
        (purchaseBeforeUpdate old (applyPurchaseChanges old
          { total_amount := some (sumSubtotals s pid),
            final_amount :=
              some (sumSubtotals s pid + old.tax_amount
                - old.discount_amount) })).id = old.id := by
      rw [purchaseBeforeUpdate_id, applyPurchaseChanges_id]
    have hupdtot :
        (purchaseBeforeUpdate old (applyPurchaseChanges old
          { total_amount := some (sumSubtotals s pid),
            final_amount :=
              some (sumSubtotals s pid + old.tax_amount
                - old.discount_amount) })).total_amount
          = sumSubtotals s pid := by
      rw [purchaseBeforeUpdate_total]; rfl
    intro pr hpr hid
    rw [hpur] at hpr
    rw [sumSubtotals_eq_of_items s s' hitems]
    rcases mem_map_replace _ old.id _ _ _ hpr with hnew | ⟨hmem, hne⟩
    · subst hnew
      rw [hupdtot]
      rw [hupdid, holdid] at hid
      rw [← hid]
    · by_cases hp : p = pid
      · exact absurd (by rw [hid, hp, holdid]) hne
      · exact hinv hp pr hmem hid

/-! ## Well-formedness is preserved by every operation -/

theorem WF_replaceCustomer (s : DBState) (cu : CustomerRec) (h : WF s) :
    WF (replaceCustomer s cu) :=
  ⟨nodup_map_replace (fun r => r.id) cu.id cu s.customers rfl h.1,
    h.2.1, h.2.2⟩

theorem WF_replacePurchase (s : DBState) (p : PurchaseRec) (h : WF s) :
    WF (replacePurchase s p) :=
  ⟨h.1, nodup_map_replace (fun r => r.id) p.id p s.purchases rfl h.2.1,
    h.2.2⟩

theorem WF_replaceItem (s : DBState) (it : PurchaseItemRec) (h : WF s) :
    WF (replaceItem s it) :=
  ⟨h.1, h.2.1,
    nodup_map_replace (fun r => r.id) it.id it s.items rfl h.2.2⟩

theorem WF_purchaseInstanceUpdate (s : DBState) (pid : Nat)
    (c : PurchaseChanges) (h : WF s) :
    WF (purchaseInstanceUpdate s pid c).1 := by
  unfold purchaseInstanceUpdate
  cases hf : findPurchase s pid with
  | none => exact h
  | some old =>
    dsimp only
    split
    · exact h
    · split
      · cases hcu : findCustomer (replacePurchase s
            (purchaseBeforeUpdate old (applyPurchaseChanges old c)))
            old.customer_id with
        | none => exact WF_replacePurchase s _ h
        | some cu =>
          dsimp only
          split
          · exact WF_replacePurchase s _ h
          · exact WF_replaceCustomer _ _ (WF_replacePurchase s _ h)
      · exact WF_replacePurchase s _ h

theorem WF_recomputePurchaseTotal (s : DBState) (pid : Nat) (h : WF s) :
    WF (recomputePurchaseTotal s pid).1 := by
  unfold recomputePurchaseTotal
  cases hf : findPurchase s pid with
  | none => exact h
  | some p => exact WF_purchaseInstanceUpdate s pid _ h

theorem freshItemId_fresh (s : DBState) :
    freshItemId s ∉ s.items.map (fun r => r.id) := by
  have := freshId_not_mem (s.items.map (fun r => r.id))
  simpa [freshItemId] using this

theorem freshPurchaseId_fresh (s : DBState) :
    freshPurchaseId s ∉ s.purchases.map (fun r => r.id) := by
  have := freshId_not_mem (s.purchases.map (fun r => r.id))
  simpa [freshPurchaseId] using this

theorem WF_purchaseItemCreate (s : DBState) (inp : PurchaseItemRec)
    (h : WF s) : WF (purchaseItemCreate s inp).1 := by
  unfold purchaseItemCreate
  split
  · exact h
  · split
    · exact h
    · refine WF_recomputePurchaseTotal _ _ ⟨h.1, h.2.1, ?_⟩
      refine nodup_append_fresh (fun r => r.id) s.items _ h.2.2 ?_
      show (purchaseItemBeforeCreate _).id ∉ _
      rw [purchaseItemBeforeCreate_id]
      exact freshItemId_fresh s

theorem WF_purchaseItemUpdate (s : DBState) (iid : Nat) (c : ItemChanges)
    (h : WF s) : WF (purchaseItemUpdate s iid c).1 := by
  unfold purchaseItemUpdate
  cases hf : findItem s iid with
  | none => exact h
  | some old =>
    dsimp only
    split
    · exact h
    · split
      · exact h
      · split
        · exact WF_recomputePurchaseTotal _ _ (WF_replaceItem s _ h)
        · exact WF_replaceItem s _ h

theorem WF_purchaseItemDestroy (s : DBState) (iid : Nat) (h : WF s) :
    WF (purchaseItemDestroy s iid).1 := by
  unfold purchaseItemDestroy
  cases hf : findItem s iid with
  | none => exact h
  | some old =>
    exact WF_recomputePurchaseTotal _ _
      ⟨h.1, h.2.1, nodup_filter_key (fun r => r.id) _ s.items h.2.2⟩

theorem WF_purchaseCreate (s : DBState) (inp : PurchaseInput)
    (now rand : Nat) (h : WF s) : WF (purchaseCreate s inp now rand).1 := by
  unfold purchaseCreate
  split
  · exact h
  · dsimp only
    generalize (match inp.purchase_number with
      | some n => if n = "" then genPurchaseNumber now rand else n
      | none => genPurchaseNumber now rand) = num
    split
    · exact h
    · split
      · exact h
      · have h1 : WF { s with purchases := s.purchases ++
          [{ id := freshPurchaseId s, customer_id := inp.customer_id,
             purchase_number := num, total_amount := inp.total_amount,
             discount_amount := inp.discount_amount,
             tax_amount := inp.tax_amount,
             final_amount :=
               inp.total_amount + inp.tax_amount - inp.discount_amount,
             purchase_date := inp.purchase_date }] } := by
          refine ⟨h.1, ?_, h.2.2⟩
          refine nodup_append_fresh (fun r => r.id) s.purchases _ h.2.1 ?_
          simpa using freshPurchaseId_fresh s
        split
        · exact h1
        · split
          · exact h1
          · exact WF_replaceCustomer _ _ h1

theorem WF_runOp (s : DBState) (op : CrmOp) (h : WF s) : WF (runOp s op).1 := by
  cases op with
  | pcreate inp now rand => exact WF_purchaseCreate s inp now rand h
  | pamounts pid tax disc => exact WF_purchaseInstanceUpdate s pid _ h
  | icreate inp => exact WF_purchaseItemCreate s inp h
  | iupdate iid c => exact WF_purchaseItemUpdate s iid c h
  | idestroy iid => exact WF_purchaseItemDestroy s iid h

/-! ## Preservation of the purchase-total invariant by the item ledger -/

theorem sumSubtotals_append (s : DBState) (it : PurchaseItemRec) (p : Nat) :
    sumSubtotals { s with items := s.items ++ [it] } p
      = sumSubtotals s p + (if it.purchase_id == p then it.subtotal else 0) := by
  unfold sumSubtotals
  exact sum_filter_append_single _ _ s.items it

theorem sumSubtotals_replaceItem (s : DBState) (iid : Nat)
    (old it : PurchaseItemRec) (hWF : WF s)
    (hf : findItem s iid = some old) (hid : it.id = iid) (p : Nat) :
    sumSubtotals (replaceItem s it) p
      = sumSubtotals s p + (if it.purchase_id == p then it.subtotal else 0)
          - (if old.purchase_id == p then old.subtotal else 0) := by
  unfold sumSubtotals replaceItem
  dsimp only
  simp only [hid]
  exact sum_filter_replace (fun r => r.id) iid _ _ s.items old it hWF.2.2
    (show s.items.find? (fun r => r.id == iid) = some old from hf)

theorem sumSubtotals_eraseItem (s : DBState) (iid : Nat)
    (old : PurchaseItemRec) (hWF : WF s) (hf : findItem s iid = some old)
    (p : Nat) :
    sumSubtotals { s with items := s.items.filter (fun r => r.id != iid) } p
      = sumSubtotals s p
          - (if old.purchase_id == p then old.subtotal else 0) := by
  unfold sumSubtotals
  exact sum_filter_erase (fun r => r.id) iid _ _ s.items old hWF.2.2
    (show s.items.find? (fun r => r.id == iid) = some old from hf)

theorem purchaseItemCreate_invTotal (s : DBState) (inp : PurchaseItemRec)
    (p : Nat) (s' : DBState) (hinv : invTotal s p)
    (hrun : purchaseItemCreate s inp = (s', true)) : invTotal s' p := by
  unfold purchaseItemCreate at hrun
  by_cases hv : validItemRec inp
  case neg =>
    rw [if_pos (by simp [hv])] at hrun
    exact absurd (congrArg Prod.snd hrun) (by simp)
  rw [if_neg (by simp [hv])] at hrun
  by_cases hfk : (findPurchase s inp.purchase_id).isNone
  case pos =>
    rw [if_pos hfk] at hrun
    exact absurd (congrArg Prod.snd hrun) (by simp)
  rw [if_neg hfk] at hrun
  dsimp only at hrun
  apply recompute_invTotal_pres _ _ p s' hrun
  intro hne pr hpr hid
  rw [sumSubtotals_append]
  rw [if_neg (by simp; exact fun hh => hne (by
    rw [purchaseItemBeforeCreate_purchase] at hh; rw [← hh]; rfl))]
  · rw [add_zero]
    exact hinv pr hpr hid

theorem purchaseItemUpdate_invTotal (s : DBState) (iid : Nat)
    (c : ItemChanges) (hmv : c.purchase_id = none) (p : Nat) (s' : DBState)
    (hWF : WF s) (hinv : invTotal s p)
    (hrun : purchaseItemUpdate s iid c = (s', true)) : invTotal s' p := by
  unfold purchaseItemUpdate at hrun
  cases hf : findItem s iid with
  | none =>
    rw [hf] at hrun
    exact absurd (congrArg Prod.snd hrun) (by simp)
  | some old =>
    rw [hf] at hrun
    dsimp only at hrun
    by_cases hv : validItemRec (applyItemChanges old c)
    case neg =>
      rw [if_pos (by simp [hv])] at hrun
      exact absurd (congrArg Prod.snd hrun) (by simp)
    rw [if_neg (by simp [hv])] at hrun
    by_cases hfk : (findPurchase s (applyItemChanges old c).purchase_id).isNone
    case pos =>
      rw [if_pos hfk] at hrun
      exact absurd (congrArg Prod.snd hrun) (by simp)
    rw [if_neg hfk] at hrun
    have hitid : (purchaseItemBeforeUpdate old c).id = iid := by
      rw [purchaseItemBeforeUpdate_id]
      exact findItem_some_id s iid old hf
    have hpidsame : (purchaseItemBeforeUpdate old c).purchase_id
        = old.purchase_id := by
      rw [purchaseItemBeforeUpdate_purchase]
      simp [applyItemChanges, hmv]
    by_cases hst : (purchaseItemBeforeUpdate old c).subtotal = old.subtotal
    · rw [if_neg (by simp [hst])] at hrun
      have h1 : replaceItem s (purchaseItemBeforeUpdate old c) = s' :=
        congrArg Prod.fst hrun
      subst h1
      intro pr hpr hid
      rw [sumSubtotals_replaceItem s iid old _ hWF hf hitid, hpidsame, hst]
      have : pr ∈ s.purchases := hpr
      rw [hinv pr this hid]
      ring
    · rw [if_pos hst] at hrun
      apply recompute_invTotal_pres _ _ p s' hrun
      intro hne pr hpr hid
      have hprs : pr ∈ s.purchases := hpr
      rw [hpidsame] at hne
      have hcond : (old.purchase_id == p) = false := by
        simp
        exact fun hh => hne hh.symm
      rw [sumSubtotals_replaceItem s iid old _ hWF hf hitid, hpidsame]
      simp only [hcond, Bool.false_eq_true, if_false]
      rw [hinv pr hprs hid]
      ring

theorem purchaseItemDestroy_invTotal (s : DBState) (iid : Nat) (p : Nat)
    (s' : DBState) (hWF : WF s) (hinv : invTotal s p)
    (hrun : purchaseItemDestroy s iid = (s', true)) : invTotal s' p := by
  unfold purchaseItemDestroy at hrun
  cases hf : findItem s iid with
  | none =>
    rw [hf] at hrun
    exact absurd (congrArg Prod.snd hrun) (by simp)
  | some old =>
    rw [hf] at hrun
    dsimp only at hrun
    apply recompute_invTotal_pres _ _ p s' hrun
    intro hne pr hpr hid
    have hprs : pr ∈ s.purchases := hpr
    have hcond : (old.purchase_id == p) = false := by
      simp
      exact fun hh => hne hh.symm
    rw [sumSubtotals_eraseItem s iid old hWF hf]
    simp only [hcond, Bool.false_eq_true, if_false]
    rw [hinv pr hprs hid]
    ring

theorem runOps_invTotal (ops : List CrmOp) (s : DBState) (p : Nat)
    (hWF : WF s) (hinv : invTotal s p)
    (hops : ∀ op ∈ ops, itemOpNoMove op = true) (s' : DBState)
    (hrun : runOps s ops = some s') : invTotal s' p := by
  induction ops generalizing s with
  | nil =>
    simp only [runOps, Option.some.injEq] at hrun
    exact hrun ▸ hinv
  | cons op rest ih =>
    simp only [runOps] at hrun
    rcases hop : runOp s op with ⟨s1, ok⟩
    rw [hop] at hrun
    cases ok with
    | false => simp at hrun
    | true =>
      dsimp only at hrun
      have hWF1 : WF s1 := by
        have := WF_runOp s op hWF
        rw [hop] at this
        exact this
      have hinv1 : invTotal s1 p := by
        have hmem := hops op (List.mem_cons_self op rest)
        cases op with
        | pcreate inp now rand => simp [itemOpNoMove] at hmem
        | pamounts pid tax disc => simp [itemOpNoMove] at hmem
        | icreate inp => exact purchaseItemCreate_invTotal s inp p s1 hinv hop
        | iupdate iid c =>
          have hmv : c.purchase_id = none := by
            simpa [itemOpNoMove, Option.isNone_iff_eq_none] using hmem
          exact purchaseItemUpdate_invTotal s iid c hmv p s1 hWF hinv hop
        | idestroy iid =>
          exact purchaseItemDestroy_invTotal s iid p s1 hWF hinv hop
      exact ih s1 hWF1 hinv1
        (fun o ho => hops o (List.mem_cons_of_mem _ ho)) hrun

/-! ## Preservation of the customer rollup invariant -/

theorem purchaseInstanceUpdate_invCust (s : DBState) (pid : Nat)
    (c : PurchaseChanges) (cid : Nat) (s' : DBState) (hWF : WF s)
    (hinv : invCust s cid)
    (hrun : purchaseInstanceUpdate s pid c = (s', true)) : invCust s' cid := by
  cases hf : findPurchase s pid with
  | none =>
    unfold purchaseInstanceUpdate at hrun
    rw [hf] at hrun
    exact absurd (congrArg Prod.snd hrun) (by simp)
  | some old =>
    obtain ⟨hitems, hpur, hcust⟩ :=
      purchaseInstanceUpdate_spec s pid c old hf _ rfl s' hrun
    set upd := purchaseBeforeUpdate old (applyPurchaseChanges old c) with hupd
    have hids : upd.id = old.id := by
      rw [hupd, purchaseBeforeUpdate_id, applyPurchaseChanges_id]
    have hcids : upd.customer_id = old.customer_id := by
      rw [hupd, purchaseBeforeUpdate_customer, applyPurchaseChanges_customer]
    have hfind' : s.purchases.find? (fun r => r.id == old.id) = some old := by
      have hh := findPurchase_some_id s pid old hf
      rw [hh]; exact hf
    have hsum : ∀ x, custFinalSum s' x = custFinalSum s x
        + (if old.customer_id == x then
             upd.final_amount - old.final_amount else 0) := by
      intro x
      unfold custFinalSum
      rw [hpur]
      have hh := sum_filter_replace (fun r => r.id) old.id
        (fun r => r.customer_id == x) (fun r => r.final_amount)
        s.purchases old upd hWF.2.1 hfind'
      rw [hh]
      simp only [hcids]
      cases hcx : (old.customer_id == x) <;> simp [hcx] <;> ring
    have hcnt : ∀ x, custPurchaseCount s' x = custPurchaseCount s x := by
      intro x
      unfold custPurchaseCount
      rw [hpur]
      exact length_filter_replace (fun r => r.id) old.id
        (fun r => r.customer_id == x) s.purchases old upd
        hWF.2.1 hfind' (by simp [hcids])
    rcases hcust with ⟨hfeq, hcu⟩ | ⟨hnone, hcu⟩ | ⟨cu0, hcu0, hge, hcu⟩
    · intro cu hmem hc
      rw [hcu] at hmem
      obtain ⟨h1, h2⟩ := hinv cu hmem hc
      refine ⟨?_, ?_⟩
      · rw [hsum cid, hfeq]
        simp [h1]
      · rw [hcnt cid]; exact h2
    · intro cu hmem hc
      rw [hcu] at hmem
      obtain ⟨h1, h2⟩ := hinv cu hmem hc
      have hne : old.customer_id ≠ cid := fun hh =>
        findCustomer_none_not_mem s old.customer_id hnone cu hmem
          (hc.trans hh.symm)
      refine ⟨?_, ?_⟩
      · rw [hsum cid, if_neg (by simp [hne]), add_zero]; exact h1
      · rw [hcnt cid]; exact h2
    · intro cu hmem hc
      rw [hcu] at hmem
      have hcu0id : cu0.id = old.customer_id :=
        findCustomer_some_id s _ cu0 hcu0
      rcases mem_map_replace (fun r => r.id) cu0.id _ s.customers cu hmem with
        hnew | ⟨hold, hne⟩
      · subst hnew
        have hc0 : cu0.id = cid := hc
        have hocid : old.customer_id = cid := by rw [← hcu0id]; exact hc0
        obtain ⟨h1, h2⟩ :=
          hinv cu0 (findCustomer_some_mem s _ cu0 hcu0) hc0
        refine ⟨?_, ?_⟩
        · show cu0.totalSpent + (upd.final_amount - old.final_amount)
            = custFinalSum s' cid
          rw [hsum cid, if_pos (by simp [hocid]), h1]
        · show cu0.totalPurchases = custPurchaseCount s' cid
          rw [hcnt cid]; exact h2
      · obtain ⟨h1, h2⟩ := hinv cu hold hc
        have hne2 : old.customer_id ≠ cid := by
          intro hh
          exact hne (by rw [hc, ← hh, hcu0id])
        refine ⟨?_, ?_⟩
        · rw [hsum cid, if_neg (by simp [hne2]), add_zero]; exact h1
        · rw [hcnt cid]; exact h2

theorem recompute_invCust (s : DBState) (pid cid : Nat) (s' : DBState)
    (hWF : WF s) (hinv : invCust s cid)
    (hrun : recomputePurchaseTotal s pid = (s', true)) : invCust s' cid := by
  cases hf : findPurchase s pid with
  | none =>
    rw [recomputePurchaseTotal_of_none s pid hf] at hrun
    have hs : s = s' := congrArg Prod.fst hrun
    exact hs ▸ hinv
  | some p =>
    rw [recomputePurchaseTotal_of_some s pid p hf] at hrun
    exact purchaseInstanceUpdate_invCust s pid _ cid s' hWF hinv hrun

/-- `invCust` only looks at the customer and purchase tables. -/
theorem invCust_congr (s s' : DBState) (hc : s'.customers = s.customers)
    (hp : s'.purchases = s.purchases) (cid : Nat) (hinv : invCust s cid) :
    invCust s' cid := by
  intro cu hmem hcid
  rw [hc] at hmem
  obtain ⟨h1, h2⟩ := hinv cu hmem hcid
  constructor
  · rw [h1]; unfold custFinalSum; rw [hp]
  · rw [h2]; unfold custPurchaseCount; rw [hp]

theorem purchaseCreate_invCust (s : DBState) (inp : PurchaseInput)
    (now rand : Nat) (cid : Nat) (s' : DBState) (hWF : WF s)
    (hinv : invCust s cid)
    (hrun : purchaseCreate s inp now rand = (s', true)) : invCust s' cid := by
  unfold purchaseCreate at hrun
  split at hrun
  · exact absurd (congrArg Prod.snd hrun) (by simp)
  · dsimp only at hrun
    generalize hnum : (match inp.purchase_number with
      | some n => if n = "" then genPurchaseNumber now rand else n
      | none => genPurchaseNumber now rand) = num at hrun
    set newp : PurchaseRec :=
      { id := freshPurchaseId s, customer_id := inp.customer_id,
        purchase_number := num, total_amount := inp.total_amount,
        discount_amount := inp.discount_amount, tax_amount := inp.tax_amount,
        final_amount :=
          inp.total_amount + inp.tax_amount - inp.discount_amount,
        purchase_date := inp.purchase_date } with hnewp
    split at hrun
    · exact absurd (congrArg Prod.snd hrun) (by simp)
    · split at hrun
      · exact absurd (congrArg Prod.snd hrun) (by simp)
      · have hsum : ∀ x, custFinalSum
            { s with purchases := s.purchases ++ [newp] } x
            = custFinalSum s x
              + (if newp.customer_id == x then newp.final_amount else 0) := by
          intro x
          unfold custFinalSum
          exact sum_filter_append_single _ _ s.purchases newp
        have hcnt : ∀ x, custPurchaseCount
            { s with purchases := s.purchases ++ [newp] } x
            = custPurchaseCount s x
              + (if newp.customer_id == x then 1 else 0) := by
          intro x
          unfold custPurchaseCount
          exact length_filter_append_single _ s.purchases newp
        split at hrun
        case _ hfc =>
          have h1 : ({ s with purchases := s.purchases ++ [newp] } : DBState)
              = s' := congrArg Prod.fst hrun
          intro cu hmem hcid
          have hmem' : cu ∈ s.customers := by rw [← h1] at hmem; exact hmem
          have hne : newp.customer_id ≠ cid := fun hh => by
            have hn := findCustomer_none_not_mem _ _ hfc cu
              (by exact hmem')
            exact hn (by rw [hcid]; exact hh.symm)
          have hne' : inp.customer_id ≠ cid := hne
          obtain ⟨h2, h3⟩ := hinv cu hmem' hcid
          rw [← h1]
          refine ⟨?_, ?_⟩
          · rw [hsum cid, if_neg (by simp [hne']), add_zero]; exact h2
          · rw [hcnt cid, if_neg (by simp [hne']), add_zero]; exact h3
        case _ cu0 hfc =>
          split at hrun
          · exact absurd (congrArg Prod.snd hrun) (by simp)
          · have h1 : replaceCustomer { s with purchases := s.purchases ++ [newp] } (rollupApplyNew cu0 newp) = s' :=
              congrArg Prod.fst hrun
            have hcu0id : cu0.id = newp.customer_id :=
              findCustomer_some_id _ _ cu0 hfc
            have hmem0 : cu0 ∈ s.customers :=
              findCustomer_some_mem _ _ cu0 hfc
            have hps : s'.purchases = s.purchases ++ [newp] := by
              rw [← h1]; rfl
            have hcs : s'.customers = s.customers.map (fun r =>
                if r.id == cu0.id then rollupApplyNew cu0 newp else r) := by
              rw [← h1]
              rfl
            have hsum' : ∀ x, custFinalSum s' x = custFinalSum s x
                + (if newp.customer_id == x then newp.final_amount else 0) := by
              intro x
              have hh := hsum x
              unfold custFinalSum at hh ⊢
              rw [hps]
              exact hh
            have hcnt' : ∀ x, custPurchaseCount s' x = custPurchaseCount s x
                + (if newp.customer_id == x then 1 else 0) := by
              intro x
              have hh := hcnt x
              unfold custPurchaseCount at hh ⊢
              rw [hps]
              exact hh
            intro cu hmem hcid
            rw [hcs] at hmem
            rcases mem_map_replace (fun r => r.id) cu0.id _ s.customers cu
              hmem with hnew | ⟨hold, hne⟩
            · subst hnew
              have hc0 : cu0.id = cid := hcid
              have hocid : newp.customer_id = cid := by
                rw [← hcu0id]; exact hc0
              have hocid' : inp.customer_id = cid := hocid
              obtain ⟨h2, h3⟩ := hinv cu0 hmem0 hc0
              refine ⟨?_, ?_⟩
              · show (rollupApplyNew cu0 newp).totalSpent = _
                show cu0.totalSpent + newp.final_amount = _
                rw [hsum' cid, if_pos (by simp [hocid']), h2]
              · show (rollupApplyNew cu0 newp).totalPurchases = _
                show cu0.totalPurchases + 1 = _
                rw [hcnt' cid, if_pos (by simp [hocid']), h3]
            · obtain ⟨h2, h3⟩ := hinv cu hold hcid
              have hne2 : newp.customer_id ≠ cid := by
                intro hh
                exact hne (by rw [hcid, ← hh, hcu0id])
              have hne2' : inp.customer_id ≠ cid := hne2
              refine ⟨?_, ?_⟩
              · rw [hsum' cid, if_neg (by simp [hne2']), add_zero]; exact h2
              · rw [hcnt' cid, if_neg (by simp [hne2']), add_zero]; exact h3

theorem purchaseItemCreate_invCust (s : DBState) (inp : PurchaseItemRec)
    (cid : Nat) (s' : DBState) (hWF : WF s) (hinv : invCust s cid)
    (hrun : purchaseItemCreate s inp = (s', true)) : invCust s' cid := by
  unfold purchaseItemCreate at hrun
  split at hrun
  · exact absurd (congrArg Prod.snd hrun) (by simp)
  · split at hrun
    · exact absurd (congrArg Prod.snd hrun) (by simp)
    · refine recompute_invCust _ _ cid s' ?_ ?_ hrun
      · refine ⟨hWF.1, hWF.2.1, ?_⟩
        refine nodup_append_fresh (fun r => r.id) s.items _ hWF.2.2 ?_
        show (purchaseItemBeforeCreate _).id ∉ _
        rw [purchaseItemBeforeCreate_id]
        exact freshItemId_fresh s
      · exact invCust_congr s _ rfl rfl cid hinv

theorem purchaseItemUpdate_invCust (s : DBState) (iid : Nat)
    (c : ItemChanges) (cid : Nat) (s' : DBState) (hWF : WF s)
    (hinv : invCust s cid)
    (hrun : purchaseItemUpdate s iid c = (s', true)) : invCust s' cid := by
  unfold purchaseItemUpdate at hrun
  cases hf : findItem s iid with
  | none =>
    rw [hf] at hrun
    exact absurd (congrArg Prod.snd hrun) (by simp)
  | some old =>
    rw [hf] at hrun
    dsimp only at hrun
    split at hrun
    · exact absurd (congrArg Prod.snd hrun) (by simp)
    · split at hrun
      · exact absurd (congrArg Prod.snd hrun) (by simp)
      · split at hrun
        · refine recompute_invCust _ _ cid s'
            (WF_replaceItem s _ hWF) ?_ hrun
          exact invCust_congr s _ rfl rfl cid hinv
        · have h1 : replaceItem s (purchaseItemBeforeUpdate old c) = s' :=
            congrArg Prod.fst hrun
          rw [← h1]
          exact invCust_congr s _ rfl rfl cid hinv

theorem purchaseItemDestroy_invCust (s : DBState) (iid : Nat) (cid : Nat)
    (s' : DBState) (hWF : WF s) (hinv : invCust s cid)
    (hrun : purchaseItemDestroy s iid = (s', true)) : invCust s' cid := by
  unfold purchaseItemDestroy at hrun
  cases hf : findItem s iid with
  | none =>
    rw [hf] at hrun
    exact absurd (congrArg Prod.snd hrun) (by simp)
  | some old =>
    rw [hf] at hrun
    dsimp only at hrun
    refine recompute_invCust _ _ cid s' ?_ ?_ hrun
    · exact ⟨hWF.1, hWF.2.1,
        nodup_filter_key (fun r => r.id) _ s.items hWF.2.2⟩
    · exact invCust_congr s _ rfl rfl cid hinv

theorem runOps_invCust (ops : List CrmOp) (s : DBState) (cid : Nat)
    (hWF : WF s) (hinv : invCust s cid) (s' : DBState)
    (hrun : runOps s ops = some s') : invCust s' cid := by
  induction ops generalizing s with
  | nil =>
    simp only [runOps, Option.some.injEq] at hrun
    exact hrun ▸ hinv
  | cons op rest ih =>
    simp only [runOps] at hrun
    rcases hop : runOp s op with ⟨s1, ok⟩
    rw [hop] at hrun
    cases ok with
    | false => simp at hrun
    | true =>
      dsimp only at hrun
      have hWF1 : WF s1 := by
        have := WF_runOp s op hWF
        rw [hop] at this
        exact this
      have hinv1 : invCust s1 cid := by
        cases op with
        | pcreate inp now rand =>
          exact purchaseCreate_invCust s inp now rand cid s1 hWF hinv hop
        | pamounts pid tax disc =>
          exact purchaseInstanceUpdate_invCust s pid _ cid s1 hWF hinv hop
        | icreate inp =>
          exact purchaseItemCreate_invCust s inp cid s1 hWF hinv hop
        | iupdate iid c =>
          exact purchaseItemUpdate_invCust s iid c cid s1 hWF hinv hop
        | idestroy iid =>
          exact purchaseItemDestroy_invCust s iid cid s1 hWF hinv hop
      exact ih s1 hWF1 hinv1 hrun

/-! ## Non-negativity of `totalSpent`, including on failed requests -/

theorem csNonneg_same_customers (s s' : DBState)
    (hc : s'.customers = s.customers) (h : csNonneg s) : csNonneg s' := by
  intro cu hmem
  rw [hc] at hmem
  exact h cu hmem

theorem csNonneg_replaceCustomer (s : DBState) (cu' : CustomerRec)
    (hge : 0 ≤ cu'.totalSpent) (h : csNonneg s) :
    csNonneg (replaceCustomer s cu') := by
  intro cu hmem
  have hmem' : cu ∈ s.customers.map
      (fun r => if r.id == cu'.id then cu' else r) := hmem
  rcases mem_map_replace (fun r => r.id) cu'.id _ s.customers cu hmem' with
    hnew | ⟨hold, -⟩
  · rw [hnew]; exact hge
  · exact h cu hold

theorem purchaseInstanceUpdate_csNonneg (s : DBState) (pid : Nat)
    (c : PurchaseChanges) (h : csNonneg s) :
    csNonneg (purchaseInstanceUpdate s pid c).1 := by
  unfold purchaseInstanceUpdate
  cases hf : findPurchase s pid with
  | none => exact h
  | some old =>
    dsimp only
    split
    · exact h
    · split
      · cases hcu : findCustomer (replacePurchase s
            (purchaseBeforeUpdate old (applyPurchaseChanges old c)))
            old.customer_id with
        | none => exact csNonneg_same_customers s _ rfl h
        | some cu =>
          dsimp only
          split
          · exact csNonneg_same_customers s _ rfl h
          · next hvc =>
            refine csNonneg_replaceCustomer _ _ ?_
              (csNonneg_same_customers s _ rfl h)
            have : validCustomerRec { cu with totalSpent := cu.totalSpent +
                ((purchaseBeforeUpdate old (applyPurchaseChanges old c)).final_amount
                  - old.final_amount) } = true := by
              revert hvc
              cases validCustomerRec { cu with totalSpent := cu.totalSpent +
                ((purchaseBeforeUpdate old (applyPurchaseChanges old c)).final_amount
                  - old.final_amount) } <;> simp
            simpa [validCustomerRec] using this
      · exact csNonneg_same_customers s _ rfl h

theorem recompute_csNonneg (s : DBState) (pid : Nat) (h : csNonneg s) :
    csNonneg (recomputePurchaseTotal s pid).1 := by
  unfold recomputePurchaseTotal
  cases hf : findPurchase s pid with
  | none => exact h
  | some p => exact purchaseInstanceUpdate_csNonneg s pid _ h

theorem purchaseItemCreate_csNonneg (s : DBState) (inp : PurchaseItemRec)
    (h : csNonneg s) : csNonneg (purchaseItemCreate s inp).1 := by
  unfold purchaseItemCreate
  split
  · exact h
  · split
    · exact h
    · exact recompute_csNonneg _ _ (csNonneg_same_customers s _ rfl h)

theorem purchaseItemUpdate_csNonneg (s : DBState) (iid : Nat)
    (c : ItemChanges) (h : csNonneg s) :
    csNonneg (purchaseItemUpdate s iid c).1 := by
  unfold purchaseItemUpdate
  cases hf : findItem s iid with
  | none => exact h
  | some old =>
    dsimp only
    split
    · exact h
    · split
      · exact h
      · split
        · exact recompute_csNonneg _ _ (csNonneg_same_customers s _ rfl h)
        · exact csNonneg_same_customers s _ rfl h

theorem purchaseItemDestroy_csNonneg (s : DBState) (iid : Nat)
    (h : csNonneg s) : csNonneg (purchaseItemDestroy s iid).1 := by
  unfold purchaseItemDestroy
  cases hf : findItem s iid with
  | none => exact h
  | some old =>
    exact recompute_csNonneg _ _ (csNonneg_same_customers s _ rfl h)

theorem purchaseCreate_csNonneg (s : DBState) (inp : PurchaseInput)
    (now rand : Nat) (h : csNonneg s) :
    csNonneg (purchaseCreate s inp now rand).1 := by
  unfold purchaseCreate
  split
  · exact h
  · dsimp only
    generalize (match inp.purchase_number with
      | some n => if n = "" then genPurchaseNumber now rand else n
      | none => genPurchaseNumber now rand) = num
    split
    · exact h
    · split
      · exact h
      · have h1 : csNonneg { s with purchases := s.purchases ++
          [{ id := freshPurchaseId s, customer_id := inp.customer_id,
             purchase_number := num, total_amount := inp.total_amount,
             discount_amount := inp.discount_amount,
             tax_amount := inp.tax_amount,
             final_amount :=
               inp.total_amount + inp.tax_amount - inp.discount_amount,
             purchase_date := inp.purchase_date }] } :=
          csNonneg_same_customers s _ rfl h
        split
        · exact h1
        · split
          · exact h1
          · next cu hfc hvc =>
            refine csNonneg_replaceCustomer _ _ ?_ h1
            have : validCustomerRec { cu with
                totalPurchases := cu.totalPurchases + 1,
                totalSpent := cu.totalSpent +
                  (inp.total_amount + inp.tax_amount - inp.discount_amount),
                lastPurchaseDate := inp.purchase_date } = true := by
              revert hvc
              cases validCustomerRec { cu with
                totalPurchases := cu.totalPurchases + 1,
                totalSpent := cu.totalSpent +
                  (inp.total_amount + inp.tax_amount - inp.discount_amount),
                lastPurchaseDate := inp.purchase_date } <;> simp
            simpa [validCustomerRec] using this

theorem runOp_csNonneg (s : DBState) (op : CrmOp) (h : csNonneg s) :
    csNonneg (runOp s op).1 := by
  cases op with
  | pcreate inp now rand => exact purchaseCreate_csNonneg s inp now rand h
  | pamounts pid tax disc => exact purchaseInstanceUpdate_csNonneg s pid _ h
  | icreate inp => exact purchaseItemCreate_csNonneg s inp h
  | iupdate iid c => exact purchaseItemUpdate_csNonneg s iid c h
  | idestroy iid => exact purchaseItemDestroy_csNonneg s iid h

theorem runAll_csNonneg (ops : List CrmOp) (s : DBState) (h : csNonneg s) :
    csNonneg (runAll s ops) := by
  induction ops generalizing s with
  | nil => exact h
  | cons op rest ih =>
    simp only [runAll]
    exact ih _ (runOp_csNonneg s op h)

/-! ## Frame lemmas: rows of other purchases are never rewritten -/

theorem find?_replace_other {α : Type} (key : α → Nat) (k : Nat) (new : α)
    (l : List α) (hnew : key new = k) (k' : Nat) (hk : k' ≠ k) :
    (l.map (fun r => if key r == k then new else r)).find?
        (fun r => key r == k')
      = l.find? (fun r => key r == k') := by
  rw [find?_map_replace key k new l hnew k']
  cases hfind : l.find? (fun r => key r == k') with
  | none => rfl
  | some e =>
    have he : key e = k' := by simpa using List.find?_some hfind
    simp [he, hk]

theorem purchaseInstanceUpdate_find_other (s : DBState) (pid : Nat)
    (c : PurchaseChanges) (k : Nat) (hk : k ≠ pid) :
    findPurchase (purchaseInstanceUpdate s pid c).1 k = findPurchase s k := by
  unfold purchaseInstanceUpdate
  cases hf : findPurchase s pid with
  | none => rfl
  | some old =>
    dsimp only
    have holdid : old.id = pid := findPurchase_some_id s pid old hf
    have hrepl : findPurchase
        (replacePurchase s (purchaseBeforeUpdate old
          (applyPurchaseChanges old c))) k = findPurchase s k := by
      unfold findPurchase replacePurchase
      dsimp only
      have hbid : (purchaseBeforeUpdate old (applyPurchaseChanges old c)).id
          = pid := by
        rw [purchaseBeforeUpdate_id, applyPurchaseChanges_id, holdid]
      exact find?_replace_other (fun r => r.id)
        ((purchaseBeforeUpdate old (applyPurchaseChanges old c)).id)
        (purchaseBeforeUpdate old (applyPurchaseChanges old c))
        s.purchases rfl k
        (by show k ≠ (purchaseBeforeUpdate old (applyPurchaseChanges old c)).id
            rw [hbid]; exact hk)
    split
    · rfl
    · split
      · cases hcu : findCustomer (replacePurchase s
            (purchaseBeforeUpdate old (applyPurchaseChanges old c)))
            old.customer_id with
        | none => exact hrepl
        | some cu =>
          dsimp only
          split
          · exact hrepl
          · rw [← hrepl]
            rfl
      · exact hrepl

theorem recompute_find_other (s : DBState) (pid : Nat) (k : Nat)
    (hk : k ≠ pid) :
    findPurchase (recomputePurchaseTotal s pid).1 k = findPurchase s k := by
  unfold recomputePurchaseTotal
  cases hf : findPurchase s pid with
  | none => rfl
  | some p => exact purchaseInstanceUpdate_find_other s pid _ k hk

theorem purchaseInstanceUpdate_items (s : DBState) (pid : Nat)
    (c : PurchaseChanges) :
    (purchaseInstanceUpdate s pid c).1.items = s.items := by
  unfold purchaseInstanceUpdate
  cases hf : findPurchase s pid with
  | none => rfl
  | some old =>
    dsimp only
    split
    · rfl
    · split
      · cases hcu : findCustomer (replacePurchase s
            (purchaseBeforeUpdate old (applyPurchaseChanges old c)))
            old.customer_id with
        | none => rfl
        | some cu =>
          dsimp only
          split
          · rfl
          · rfl
      · rfl

theorem recompute_items (s : DBState) (pid : Nat) :
    (recomputePurchaseTotal s pid).1.items = s.items := by
  unfold recomputePurchaseTotal
  cases hf : findPurchase s pid with
  | none => rfl
  | some p => exact purchaseInstanceUpdate_items s pid _

/-! ## Stock-path helpers -/

theorem setStock_ids (vs : List VariantRec) (vid : Nat) (n : Int) (x : Nat) :
    (findVariant (setStock vs vid n) x).isSome = (findVariant vs x).isSome := by
  unfold findVariant setStock
  rw [List.find?_map]
  have hp : ((fun (v : VariantRec) => v.id == x) ∘ fun (v : VariantRec) =>
      if v.id == vid then { v with stock := n } else v)
      = (fun (v : VariantRec) => v.id == x) := by
    funext v
    by_cases hv : v.id = vid
    · simp [Function.comp, hv]
    · simp [Function.comp, if_neg (by simpa using hv)]
  rw [hp]
  cases List.find? (fun (v : VariantRec) => v.id == x) vs <;> rfl

theorem setStock_self (vs : List VariantRec) (vid : Nat) (n : Int)
    (hex : (findVariant vs vid).isSome = true) :
    (findVariant (setStock vs vid n) vid).map (fun v => v.stock)
      = some n := by
  unfold findVariant setStock
  rw [List.find?_map]
  have hp : ((fun (v : VariantRec) => v.id == vid) ∘ fun (v : VariantRec) =>
      if v.id == vid then { v with stock := n } else v)
      = (fun (v : VariantRec) => v.id == vid) := by
    funext v
    by_cases hv : v.id = vid
    · simp [Function.comp, hv]
    · simp [Function.comp, if_neg (by simpa using hv)]
  rw [hp]
  unfold findVariant at hex
  cases hfind : vs.find? (fun v => v.id == vid) with
  | none => rw [hfind] at hex; simp at hex
  | some e =>
    have he : e.id = vid := by simpa using List.find?_some hfind
    simp [he]

theorem bulkUpdateStock_length (vs : List VariantRec)
    (us : List StockUpdate) :
    (bulkUpdateStock vs us).2.length = us.length := by
  induction us generalizing vs with
  | nil => rfl
  | cons u rest ih =>
    unfold bulkUpdateStock
    cases hfv : findVariant vs u.variantId <;> simp [ih]

theorem bulkUpdateStock_results (vs : List VariantRec)
    (us : List StockUpdate) (i : Nat) (u : StockUpdate)
    (hu : us[i]? = some u) :
    (bulkUpdateStock vs us).2[i]?
      = some (if (findVariant vs u.variantId).isSome then
          { variantId := u.variantId, success := true, error := none }
        else
          { variantId := u.variantId, success := false,
            error := some "Variant not found" }) := by
  induction us generalizing vs i with
  | nil => simp at hu
  | cons u0 rest ih =>
    cases i with
    | zero =>
      simp only [List.getElem?_cons_zero, Option.some.injEq] at hu
      subst hu
      unfold bulkUpdateStock
      cases hfv : findVariant vs u0.variantId with
      | none =>
        rcases hbk : bulkUpdateStock vs rest with ⟨a, b⟩
        simp [hfv, hbk]
      | some v0 =>
        rcases hbk : bulkUpdateStock (setStock vs u0.variantId u0.newStock)
          rest with ⟨a, b⟩
        simp [hfv, hbk]
    | succ j =>
      simp only [List.getElem?_cons_succ] at hu
      unfold bulkUpdateStock
      cases hfv : findVariant vs u0.variantId with
      | none =>
        have hih := ih vs j hu
        rcases hbk : bulkUpdateStock vs rest with ⟨a, b⟩
        rw [hbk] at hih
        simpa [hbk] using hih
      | some v0 =>
        have hih := ih (setStock vs u0.variantId u0.newStock) j hu
        rcases hbk : bulkUpdateStock (setStock vs u0.variantId u0.newStock)
          rest with ⟨a, b⟩
        rw [hbk] at hih
        simp only [setStock_ids] at hih
        simpa [hbk] using hih

theorem bulkUpdateStock_applied (vs : List VariantRec)
    (us₁ : List StockUpdate) (vid : Nat) (n : Int)
    (hex : (findVariant vs vid).isSome = true) :
    (findVariant (bulkUpdateStock vs
        (us₁ ++ [{ variantId := vid, newStock := n }])).1 vid).map
      (fun v => v.stock) = some n := by
  induction us₁ generalizing vs with
  | nil =>
    rw [List.nil_append]
    unfold bulkUpdateStock
    cases hfv : findVariant vs vid with
    | none => rw [hfv] at hex; simp at hex
    | some v0 =>
      show Option.map (fun v => v.stock)
        (findVariant (setStock vs vid n) vid) = some n
      exact setStock_self vs vid n hex
  | cons u rest ih =>
    rw [List.cons_append]
    unfold bulkUpdateStock
    cases hfv : findVariant vs u.variantId with
    | none =>
      have hih := ih vs hex
      rcases hbk : bulkUpdateStock vs
        (rest ++ [{ variantId := vid, newStock := n }]) with ⟨a, b⟩
      rw [hbk] at hih
      simpa [hbk] using hih
    | some v0 =>
      have hex2 : (findVariant (setStock vs u.variantId u.newStock)
          vid).isSome = true := by
        rw [setStock_ids]; exact hex
      have hih := ih (setStock vs u.variantId u.newStock) hex2
      rcases hbk : bulkUpdateStock (setStock vs u.variantId u.newStock)
        (rest ++ [{ variantId := vid, newStock := n }]) with ⟨a, b⟩
      rw [hbk] at hih
      simpa [hbk] using hih

/-! ## Claim-level helper facts -/

theorem pricingChanged_false (old : PurchaseItemRec) (c : ItemChanges)
    (hq : chg old.quantity c.quantity = false)
    (hu : chg old.unit_price c.unit_price = false)
    (hd : chg old.discount_percentage c.discount_percentage = false) :
    pricingChanged old c = false := by
  simp [pricingChanged, hq, hu, hd]

theorem purchaseItemBeforeUpdate_no_pricing (old : PurchaseItemRec)
    (c : ItemChanges) (hpc : pricingChanged old c = false) :
    purchaseItemBeforeUpdate old c = applyItemChanges old c := by
  simp [purchaseItemBeforeUpdate, hpc]

theorem applyItemChanges_da (old : PurchaseItemRec) (c : ItemChanges) :
    (applyItemChanges old c).discount_amount = old.discount_amount := rfl

theorem applyItemChanges_st (old : PurchaseItemRec) (c : ItemChanges) :
    (applyItemChanges old c).subtotal = old.subtotal := rfl

theorem findItem_replaceItem_self (s : DBState) (iid : Nat)
    (old it : PurchaseItemRec) (hf : findItem s iid = some old)
    (hid : it.id = old.id) :
    findItem (replaceItem s it) iid = some it := by
  unfold findItem replaceItem
  dsimp only
  rw [find?_map_replace (fun r => r.id) it.id it s.items rfl iid,
    show s.items.find? (fun r => r.id == iid) = some old from hf]
  simp [hid]

/-- C6: an `updateItem` whose changed fields include none of `quantity`,
`unit_price`, `discount_percentage` recomputes nothing: the stored item
keeps its `discount_amount` and `subtotal`, and neither the purchase
table (in particular the parent's `total_amount`) nor the customer
table is written at all. -/
theorem C6_no_pricing_change_no_recompute (s : DBState) (iid : Nat)
    (c : ItemChanges) (old : PurchaseItemRec)
    (hf : findItem s iid = some old)
    (hq : chg old.quantity c.quantity = false)
    (hu : chg old.unit_price c.unit_price = false)
    (hd : chg old.discount_percentage c.discount_percentage = false) :
    (purchaseItemUpdate s iid c).1.purchases = s.purchases ∧
    (purchaseItemUpdate s iid c).1.customers = s.customers ∧
    ((purchaseItemUpdate s iid c).2 = true →
      findItem (purchaseItemUpdate s iid c).1 iid
        = some (applyItemChanges old c)) ∧
    (applyItemChanges old c).discount_amount = old.discount_amount ∧
    (applyItemChanges old c).subtotal = old.subtotal := by
  have hpc := pricingChanged_false old c hq hu hd
  have hbu := purchaseItemBeforeUpdate_no_pricing old c hpc
  by_cases h1 : validItemRec (applyItemChanges old c)
  case neg =>
    have hres : purchaseItemUpdate s iid c = (s, false) := by
      unfold purchaseItemUpdate
      rw [hf]
      dsimp only
      rw [if_pos (by simp [h1])]
    rw [hres]
    exact ⟨rfl, rfl, by intro hh; simp at hh, rfl, rfl⟩
  by_cases h2 : (findPurchase s (applyItemChanges old c).purchase_id).isNone
  case pos =>
    have hres : purchaseItemUpdate s iid c = (s, false) := by
      unfold purchaseItemUpdate
      rw [hf]
      dsimp only
      rw [if_neg (by simp [h1]), if_pos h2]
    rw [hres]
    exact ⟨rfl, rfl, by intro hh; simp at hh, rfl, rfl⟩
  have hres : purchaseItemUpdate s iid c
      = (replaceItem s (applyItemChanges old c), true) := by
    unfold purchaseItemUpdate
    rw [hf]
    dsimp only
    rw [if_neg (by simp [h1]), if_neg h2, hbu,
      if_neg (by simp [applyItemChanges_st])]
  rw [hres]
  refine ⟨rfl, rfl, ?_, rfl, rfl⟩
  intro _
  exact findItem_replaceItem_self s iid old _ hf (applyItemChanges_id old c)

/-- C10: when an `updateItem` call moves an item from purchase `A` to
purchase `B`, re-aggregation runs at most against `B` (and only when
`subtotal` changed); `A`'s stored row is never rewritten, so after a
completed move `A`'s `total_amount` exceeds the sum of its current
items' subtotals by exactly the moved item's old subtotal. -/
theorem C10_move_skips_old_parent (s : DBState) (iid A B : Nat)
    (c : ItemChanges) (old : PurchaseItemRec)
    (hf : findItem s iid = some old) (hA : old.purchase_id = A)
    (hB : c.purchase_id = some B) (hAB : A ≠ B) :
    findPurchase (purchaseItemUpdate s iid c).1 A = findPurchase s A ∧
    ((purchaseItemBeforeUpdate old c).subtotal = old.subtotal →
      (purchaseItemUpdate s iid c).1.purchases = s.purchases) ∧
    (WF s → (purchaseItemUpdate s iid c).2 = true →
      sumSubtotals (purchaseItemUpdate s iid c).1 A
        = sumSubtotals s A - old.subtotal) ∧
    (WF s → invTotal s A → (purchaseItemUpdate s iid c).2 = true →
      ∀ pr, findPurchase (purchaseItemUpdate s iid c).1 A = some pr →
        pr.total_amount
          = sumSubtotals (purchaseItemUpdate s iid c).1 A + old.subtotal) := by
  have hitid : (purchaseItemBeforeUpdate old c).id = iid := by
    rw [purchaseItemBeforeUpdate_id]
    exact findItem_some_id s iid old hf
  have hitpid : (purchaseItemBeforeUpdate old c).purchase_id = B := by
    rw [purchaseItemBeforeUpdate_purchase]
    simp [applyItemChanges, hB]
  by_cases h1 : validItemRec (applyItemChanges old c)
  case neg =>
    have hres : purchaseItemUpdate s iid c = (s, false) := by
      unfold purchaseItemUpdate
      rw [hf]
      dsimp only
      rw [if_pos (by simp [h1])]
    rw [hres]
    refine ⟨rfl, fun _ => rfl, fun _ hh => by simp at hh,
      fun _ _ hh => by simp at hh⟩
  by_cases h2 : (findPurchase s (applyItemChanges old c).purchase_id).isNone
  case pos =>
    have hres : purchaseItemUpdate s iid c = (s, false) := by
      unfold purchaseItemUpdate
      rw [hf]
      dsimp only
      rw [if_neg (by simp [h1]), if_pos h2]
    rw [hres]
    refine ⟨rfl, fun _ => rfl, fun _ hh => by simp at hh,
      fun _ _ hh => by simp at hh⟩
  have hsum1 : ∀ hWF : WF s,
      sumSubtotals (replaceItem s (purchaseItemBeforeUpdate old c)) A
        = sumSubtotals s A - old.subtotal := by
    intro hWF
    rw [sumSubtotals_replaceItem s iid old _ hWF hf hitid, hitpid, hA]
    rw [if_neg (by simp [Ne.symm hAB]), if_pos (by simp)]
    ring
  by_cases hst : (purchaseItemBeforeUpdate old c).subtotal = old.subtotal
  · have hres : purchaseItemUpdate s iid c
        = (replaceItem s (purchaseItemBeforeUpdate old c), true) := by
      unfold purchaseItemUpdate
      rw [hf]
      dsimp only
      rw [if_neg (by simp [h1]), if_neg h2, if_neg (by simp [hst])]
    rw [hres]
    refine ⟨rfl, fun _ => rfl, fun hWF _ => hsum1 hWF, ?_⟩
    intro hWF hinv _ pr hpr
    have hprs : pr ∈ s.purchases := findPurchase_some_mem s A pr hpr
    have hprid : pr.id = A := findPurchase_some_id s A pr hpr
    rw [hsum1 hWF, hinv pr hprs hprid]
    ring
  · have hres : purchaseItemUpdate s iid c
        = recomputePurchaseTotal
            (replaceItem s (purchaseItemBeforeUpdate old c)) B := by
      unfold purchaseItemUpdate
      rw [hf]
      dsimp only
      rw [if_neg (by simp [h1]), if_neg h2, if_pos hst, hitpid]
    have hfindA : findPurchase (purchaseItemUpdate s iid c).1 A
        = findPurchase s A := by
      rw [hres, recompute_find_other _ _ _ hAB]
      rfl
    have hsumA : ∀ hWF : WF s,
        sumSubtotals (purchaseItemUpdate s iid c).1 A
          = sumSubtotals s A - old.subtotal := by
      intro hWF
      rw [hres,
        sumSubtotals_eq_of_items _ _ (recompute_items _ B) A]
      exact hsum1 hWF
    refine ⟨hfindA, fun hh => absurd hh hst, fun hWF _ => hsumA hWF, ?_⟩
    intro hWF hinv _ pr hpr
    rw [hfindA] at hpr
    have hprs : pr ∈ s.purchases := findPurchase_some_mem s A pr hpr
    have hprid : pr.id = A := findPurchase_some_id s A pr hpr
    rw [hsumA hWF, hinv pr hprs hprid]
    ring

/-- C8 (amended): a `createPurchase` call can only complete when the
caller itself supplied a non-empty purchase number — the `beforeCreate`
generator runs after `allowNull: false` validation and therefore never
takes effect — and the stored number is exactly the supplied one, kept
unique only by the unique-index check (a colliding insert fails; there
is no regeneration). -/
theorem C8_purchase_number_requires_caller_value (s : DBState)
    (inp : PurchaseInput) (now rand : Nat) (s' : DBState)
    (hrun : purchaseCreate s inp now rand = (s', true)) :
    ∃ n, inp.purchase_number = some n ∧ n ≠ "" ∧
      s'.purchases.map (fun p => p.purchase_number)
        = s.purchases.map (fun p => p.purchase_number) ++ [n] ∧
      ∀ pr ∈ s.purchases, pr.purchase_number ≠ n := by
  unfold purchaseCreate at hrun
  split at hrun
  · exact absurd (congrArg Prod.snd hrun) (by simp)
  · next hval =>
    have hv : validPurchaseInput inp = true := by
      revert hval
      cases validPurchaseInput inp <;> simp
    cases hpn : inp.purchase_number with
    | none =>
      unfold validPurchaseInput at hv
      rw [hpn] at hv
      simp at hv
    | some n =>
      have hne : n ≠ "" := by
        unfold validPurchaseInput at hv
        rw [hpn] at hv
        simp only [Bool.and_eq_true, decide_eq_true_eq] at hv
        exact hv.1.2
      dsimp only at hrun
      rw [hpn] at hrun
      dsimp only at hrun
      rw [if_neg hne] at hrun
      refine ⟨n, rfl, hne, ?_⟩
      split at hrun
      · exact absurd (congrArg Prod.snd hrun) (by simp)
      · split at hrun
        · exact absurd (congrArg Prod.snd hrun) (by simp)
        · next hdup =>
          have hforall : ∀ pr ∈ s.purchases, pr.purchase_number ≠ n := by
            intro pr hpr hcontra
            exact hdup (List.any_eq_true.mpr ⟨pr, hpr, by simp [hcontra]⟩)
          split at hrun
          · obtain ⟨h1, -⟩ := Prod.mk.injEq .. ▸ hrun
            refine ⟨?_, hforall⟩
            rw [← h1]
            simp
          · split at hrun
            · exact absurd (congrArg Prod.snd hrun) (by simp)
            · obtain ⟨h1, -⟩ := Prod.mk.injEq .. ▸ hrun
              refine ⟨?_, hforall⟩
              rw [← h1]
              simp [replaceCustomer]

/-! ## The claims -/

/-- C1: for every purchase and every completed sequence of purchase-item
create, update and delete operations against it (an update does not
reassign the owning purchase), the purchase's stored `total_amount`
equals the sum of the subtotals of the items it currently owns.  Every
prefix of a completed sequence is itself a completed sequence, so the
invariant holds after each operation. -/
theorem C1_total_amount_is_item_subtotal_sum (s : DBState) (p : Nat)
    (ops : List CrmOp) (hWF : WF s) (hinv : invTotal s p)
    (hops : ∀ op ∈ ops, itemOpNoMove op = true) (s' : DBState)
    (hrun : runOps s ops = some s') : invTotal s' p :=
  runOps_invTotal ops s p hWF hinv hops s' hrun

theorem C1_witness : invTotal c1Final 1 :=
  C1_total_amount_is_item_subtotal_sum c1State 1 c1Ops
    (of_decide_eq_true (by with_unfolding_all rfl))
    (of_decide_eq_true (by with_unfolding_all rfl))
    (of_decide_eq_true (by with_unfolding_all rfl))
    c1Final (by with_unfolding_all rfl)

/-- C2: for every customer and every completed sequence of purchase
creations, direct purchase amount edits and item mutations, the
customer's `totalSpent` equals the sum of `final_amount` over the
customer's purchases and `totalPurchases` equals their count.  The
embedded hooks maintain these by incremental deltas — `afterCreate`
adds the new `final_amount` and increments the counter, `afterUpdate`
adds `newFinal - previousFinal` — never by re-summing the table. -/
theorem C2_customer_rollup_invariant (s : DBState) (cid : Nat)
    (ops : List CrmOp) (hWF : WF s) (hinv : invCust s cid) (s' : DBState)
    (hrun : runOps s ops = some s') : invCust s' cid :=
  runOps_invCust ops s cid hWF hinv s' hrun

theorem C2_witness : invCust c2Final 1 :=
  C2_customer_rollup_invariant c2State 1 c2Ops
    (of_decide_eq_true (by with_unfolding_all rfl))
    (of_decide_eq_true (by with_unfolding_all rfl))
    c2Final (by with_unfolding_all rfl)

/-- C3 (code bug): a direct amount edit whose derived `final_amount` is
negative is NOT rejected: validation runs before the `beforeUpdate`
hook, so the derived value bypasses the `min: 0` validator.  At the
failing input — a purchase with `total_amount = 100` whose
`discount_amount` is set to 150 — the update reports success and stores
`final_amount = -50`. -/
theorem C3_negative_final_amount_stored_with_success :
    (runOp c3State (CrmOp.pamounts 1 none (some 150))).2 = true ∧
    findPurchase (runOp c3State (CrmOp.pamounts 1 none (some 150))).1 1
      = some { id := 1, customer_id := 1, purchase_number := "PUR-1",
               total_amount := 100, discount_amount := 150, tax_amount := 0,
               final_amount := -50, purchase_date := 0 } ∧
    ¬ (0 ≤ (-50 : Rat)) :=
  of_decide_eq_true (by with_unfolding_all rfl)

/-- C4 (amended): after an update that changed a pricing field, or on
create, `subtotal = unit_price * quantity - discount_amount` and, when
`discount_percentage > 0`,
`discount_amount = unit_price * quantity * discount_percentage / 100`;
when `discount_percentage = 0` an update resets `discount_amount` to 0
but a create keeps the incoming value (default 0).  The hooks compute
at full precision and perform no two-decimal rounding themselves; that
is left to the DECIMAL(n,2) column types of the database. -/
theorem C4_item_pricing_hooks (old : PurchaseItemRec) (c : ItemChanges)
    (inp : PurchaseItemRec) (hch : pricingChanged old c = true) :
    ((purchaseItemBeforeUpdate old c).subtotal
        = (applyItemChanges old c).unit_price
            * ((applyItemChanges old c).quantity : Rat)
          - (purchaseItemBeforeUpdate old c).discount_amount) ∧
    (0 < (applyItemChanges old c).discount_percentage →
      (purchaseItemBeforeUpdate old c).discount_amount
        = (applyItemChanges old c).unit_price
            * ((applyItemChanges old c).quantity : Rat)
            * (applyItemChanges old c).discount_percentage / 100) ∧
    (¬ 0 < (applyItemChanges old c).discount_percentage →
      (purchaseItemBeforeUpdate old c).discount_amount = 0) ∧
    ((purchaseItemBeforeCreate inp).subtotal
        = inp.unit_price * (inp.quantity : Rat)
          - (purchaseItemBeforeCreate inp).discount_amount) ∧
    (0 < inp.discount_percentage →
      (purchaseItemBeforeCreate inp).discount_amount
        = inp.unit_price * (inp.quantity : Rat)
            * inp.discount_percentage / 100) ∧
    (¬ 0 < inp.discount_percentage →
      (purchaseItemBeforeCreate inp).discount_amount
        = inp.discount_amount) := by
  refine ⟨?_, fun hdp => ?_, fun hdp => ?_, ?_, fun hdp => ?_, fun hdp => ?_⟩
  · by_cases hdp : (0 : Rat) < (applyItemChanges old c).discount_percentage <;>
      simp [purchaseItemBeforeUpdate, hch, hdp]
  · simp [purchaseItemBeforeUpdate, hch, hdp]
  · simp [purchaseItemBeforeUpdate, hch, hdp]
  · by_cases hdp : (0 : Rat) < inp.discount_percentage <;>
      simp [purchaseItemBeforeCreate, hdp]
  · simp [purchaseItemBeforeCreate, hdp]
  · simp [purchaseItemBeforeCreate, hdp]

theorem C4_witness :
    pricingChanged c4WitOld c4WitChanges = true ∧
    (purchaseItemBeforeUpdate c4WitOld c4WitChanges).subtotal
      = (applyItemChanges c4WitOld c4WitChanges).unit_price
          * ((applyItemChanges c4WitOld c4WitChanges).quantity : Rat)
        - (purchaseItemBeforeUpdate c4WitOld c4WitChanges).discount_amount :=
  ⟨of_decide_eq_true (by with_unfolding_all rfl),
    (C4_item_pricing_hooks c4WitOld c4WitChanges c4WitInp
      (of_decide_eq_true (by with_unfolding_all rfl))).1⟩

/-- C4 counterexample: the claim as stated fails on `beforeCreate` in
two ways.  With `discount_percentage = 0` and a supplied
`discount_amount = 3` the hook keeps 3 instead of zero; and with
`unit_price = 1`, `quantity = 1`, `discount_percentage = 0.50` the
stored `discount_amount` is `0.005`, which is not a two-decimal value —
the JavaScript performs no rounding. -/
theorem C4_counterexample :
    (purchaseItemBeforeCreate c4ZeroPctCreate).discount_amount = 3 ∧
    ¬ ((purchaseItemBeforeCreate c4ZeroPctCreate).discount_amount = 0) ∧
    (purchaseItemBeforeCreate c4HalfPctCreate).discount_amount = 1/200 ∧
    ¬ isTwoDecimal (purchaseItemBeforeCreate c4HalfPctCreate).discount_amount :=
  of_decide_eq_true (by with_unfolding_all rfl)

/-- C5 (amended): the re-aggregation takes no lock and no transaction —
it is three separate awaited steps (item UPDATE; `findAll` read;
purchase UPDATE).  Two `updateItem` requests executed serially, in
either order, both land in `total_amount` (120 here), but the unlocked
steps also admit interleavings that lose one update (the
counterexample). -/
theorem C5_serial_updates_both_reflected :
    runOps c5State [c5OpA, c5OpB] = some c5SerialAB ∧
    (findPurchase c5SerialAB 1).map (fun p => p.total_amount) = some 120 ∧
    runOps c5State [c5OpB, c5OpA] = some c5SerialBA ∧
    (findPurchase c5SerialBA 1).map (fun p => p.total_amount) = some 120 ∧
    (findItem c5SerialAB 1).map (fun it => it.subtotal) = some 50 ∧
    (findItem c5SerialAB 2).map (fun it => it.subtotal) = some 70 :=
  of_decide_eq_true (by with_unfolding_all rfl)

/-- C5 counterexample: an interleaving of the two requests' unlocked
phases — A writes its item, A reads the item set, B writes its item, B
reads, B persists its total (120), A persists its stale total (70) —
ends with `total_amount = 70` while the items currently owned sum to
120: request B's mutation is lost, refuting the claimed exclusive lock
and no-lost-update guarantee. -/
theorem C5_counterexample :
    (findPurchase c5Interleaved 1).map (fun p => p.total_amount) = some 70 ∧
    sumSubtotals c5Interleaved 1 = 120 ∧
    ¬ ((70 : Rat) = 120) :=
  of_decide_eq_true (by with_unfolding_all rfl)

theorem C6_witness :
    (purchaseItemUpdate c6State 1 c6Changes).1.purchases
        = c6State.purchases ∧
    (purchaseItemUpdate c6State 1 c6Changes).1.customers
        = c6State.customers ∧
    ((purchaseItemUpdate c6State 1 c6Changes).2 = true →
      findItem (purchaseItemUpdate c6State 1 c6Changes).1 1
        = some (applyItemChanges c6OldItem c6Changes)) ∧
    (applyItemChanges c6OldItem c6Changes).discount_amount
        = c6OldItem.discount_amount ∧
    (applyItemChanges c6OldItem c6Changes).subtotal = c6OldItem.subtotal :=
  C6_no_pricing_change_no_recompute c6State 1 c6Changes c6OldItem
    (by with_unfolding_all rfl)
    (of_decide_eq_true (by with_unfolding_all rfl))
    (of_decide_eq_true (by with_unfolding_all rfl))
    (of_decide_eq_true (by with_unfolding_all rfl))

/-- C7 (amended): `totalSpent` never goes negative — every write to it
is guarded by the `min: 0` validator — but a delta that would drive it
negative makes the customer-statistics write FAIL with a validation
error, leaving the previous value in place; nothing clamps to zero and
nothing logs.  The theorem covers arbitrary request sequences including
failed ones (partial effects kept). -/
theorem C7_totalSpent_never_negative (ops : List CrmOp) (s : DBState)
    (h : csNonneg s) : csNonneg (runAll s ops) :=
  runAll_csNonneg ops s h

theorem C7_witness : csNonneg (runAll c7State [c7Op]) :=
  C7_totalSpent_never_negative [c7Op] c7State
    (of_decide_eq_true (by with_unfolding_all rfl))

/-- C7 counterexample: customer with `totalSpent = 5`; an amount edit
moves the purchase's `final_amount` from 10 to 1, a delta of −9 that
would drive `totalSpent` to −4.  The code rejects the customer write
(the request fails) and `totalSpent` stays 5 — it is not clamped to 0
as the claim states.  The purchase row itself keeps its new amounts:
the chain is not transactional. -/
theorem C7_counterexample :
    (runOp c7State c7Op).2 = false ∧
    findCustomer (runOp c7State c7Op).1 1
      = some { id := 1, totalPurchases := 1, totalSpent := 5,
               lastPurchaseDate := 0 } ∧
    ¬ (findCustomer (runOp c7State c7Op).1 1
        = some { id := 1, totalPurchases := 1, totalSpent := 0,
                 lastPurchaseDate := 0 }) ∧
    findPurchase (runOp c7State c7Op).1 1
      = some { id := 1, customer_id := 1, purchase_number := "P1",
               total_amount := 10, discount_amount := 9, tax_amount := 0,
               final_amount := 1, purchase_date := 0 } :=
  of_decide_eq_true (by with_unfolding_all rfl)

theorem C8_witness :
    ∃ n, c8WitInput.purchase_number = some n ∧ n ≠ "" ∧
      c8WitFinal.purchases.map (fun p => p.purchase_number)
        = c8State.purchases.map (fun p => p.purchase_number) ++ [n] ∧
      ∀ pr ∈ c8State.purchases, pr.purchase_number ≠ n :=
  C8_purchase_number_requires_caller_value c8State c8WitInput 3 4 c8WitFinal
    (by with_unfolding_all rfl)

/-- C8 counterexample: a `createPurchase` call that supplies no purchase
number is rejected by `allowNull: false` validation before the
`beforeCreate` generator can run — no number is generated and nothing
is stored, refuting the claim that such a call generates and stores a
unique number. -/
theorem C8_counterexample :
    purchaseCreate c8State c8NoNumberInput 1000 5 = (c8State, false) :=
  by with_unfolding_all rfl

/-- C9 (amended): `bulkUpdateStock` yields exactly one result per
entry; an entry whose variant is absent yields a not-found failure
result, an entry whose variant exists yields a success result — there
is no validation of `newStock`, so a negative value is applied and
reported as success (the counterexample) — and a valid entry's write is
applied regardless of any other entry's failure: the batch never fails
as a whole. -/
theorem C9_bulk_stock_per_entry_isolation (vs : List VariantRec)
    (us : List StockUpdate) (i : Nat) (u : StockUpdate)
    (hu : us[i]? = some u) (us₁ : List StockUpdate) (vid : Nat) (n : Int)
    (hex : (findVariant vs vid).isSome = true) :
    (bulkUpdateStock vs us).2.length = us.length ∧
    (bulkUpdateStock vs us).2[i]?
      = some (if (findVariant vs u.variantId).isSome then
          { variantId := u.variantId, success := true, error := none }
        else
          { variantId := u.variantId, success := false,
            error := some "Variant not found" }) ∧
    (findVariant (bulkUpdateStock vs
        (us₁ ++ [{ variantId := vid, newStock := n }])).1 vid).map
      (fun v => v.stock) = some n :=
  ⟨bulkUpdateStock_length vs us, bulkUpdateStock_results vs us i u hu,
    bulkUpdateStock_applied vs us₁ vid n hex⟩

theorem C9_witness :
    (bulkUpdateStock c9Variants c9Updates).2.length = c9Updates.length ∧
    (bulkUpdateStock c9Variants c9Updates).2[0]?
      = some (if (findVariant c9Variants
            (c9Updates.get ⟨0, by decide⟩).variantId).isSome
          then
          { variantId :=
              (c9Updates.get ⟨0, by decide⟩).variantId,
            success := true, error := none }
        else
          { variantId :=
              (c9Updates.get ⟨0, by decide⟩).variantId,
            success := false, error := some "Variant not found" }) ∧
    (findVariant (bulkUpdateStock c9Variants
        ([{ variantId := 2, newStock := 50 }]
          ++ [{ variantId := 1, newStock := 7 }])).1 1).map
      (fun v => v.stock) = some 7 :=
  C9_bulk_stock_per_entry_isolation c9Variants c9Updates 0
    (c9Updates.get ⟨0, by decide⟩)
    (by with_unfolding_all rfl)
    [{ variantId := 2, newStock := 50 }] 1 7
    (by with_unfolding_all rfl)

/-- C9 counterexample: an entry with negative stock is not rejected:
setting variant 1's stock to −5 is applied and reported as a success
result, refuting the claimed `ValidationFailure` for negative values. -/
theorem C9_counterexample :
    bulkUpdateStock [{ id := 1, stock := 10 }]
        [{ variantId := 1, newStock := -5 }]
      = ([{ id := 1, stock := -5 }],
         [{ variantId := 1, success := true, error := none }]) :=
  by with_unfolding_all rfl

theorem C10_witness :
    c10StaleRow.total_amount
      = sumSubtotals (purchaseItemUpdate c10State 1 c10Move).1 1
        + c10OldItem.subtotal :=
  (C10_move_skips_old_parent c10State 1 1 2 c10Move c10OldItem
      (by with_unfolding_all rfl)
      (by with_unfolding_all rfl)
      (by with_unfolding_all rfl)
      (of_decide_eq_true (by with_unfolding_all rfl))).2.2.2
    (of_decide_eq_true (by with_unfolding_all rfl))
    (of_decide_eq_true (by with_unfolding_all rfl))
    (by with_unfolding_all rfl)
    c10StaleRow (by with_unfolding_all rfl)

end Crm
